import Mathlib

/-!
Verification development for the weekly-coaching tracker application
(`modules/data_handler.py`, `modules/tracker.py`, `modules/groq_client.py`).

The Python code is shallowly embedded: dataframes become lists of rows of
cells, pandas/numpy helpers are re-implemented over lists, floats are
modelled as exact rationals, and the hosted LLM service is an oracle
parameter.  All definitions are executable so that concrete inputs can be
evaluated inside proofs.
-/

/- ===================== Exact rationals =====================
Python/numpy floats are modelled as exact rationals.  `Q` is kept in lowest
terms with a positive denominator by the smart constructor `mkQ`, so that
structural equality coincides with numeric equality for all values built
here. -/

structure Q where
  num : Int
  den : Nat
deriving DecidableEq

def mkQ (n : Int) (d : Nat) : Q :=
  if d = 0 then ⟨0, 1⟩
  else
    let g := Nat.gcd n.natAbs d
    ⟨Int.fdiv n g, d / g⟩

def Q.ofInt (n : Int) : Q := ⟨n, 1⟩

def Q.ofNat (n : Nat) : Q := ⟨(n : Int), 1⟩

def Q.add (a b : Q) : Q := mkQ (a.num * b.den + b.num * a.den) (a.den * b.den)

def Q.mul (a b : Q) : Q := mkQ (a.num * b.num) (a.den * b.den)

def Q.neg (a : Q) : Q := ⟨-a.num, a.den⟩

def Q.sub (a b : Q) : Q := a.add b.neg

def Q.divQ (a b : Q) : Q :=
  let n := a.num * (b.den : Int)
  let d := (a.den : Int) * b.num
  if d < 0 then mkQ (-n) (-d).toNat else mkQ n d.toNat

def Q.blt (a b : Q) : Bool := a.num * (b.den : Int) < b.num * (a.den : Int)

def Q.floorQ (a : Q) : Int := Int.fdiv a.num a.den

def sumQ (l : List Q) : Q := l.foldr Q.add (Q.ofNat 0)

/-- `np.mean` over a list of rationals: sum divided by length. -/
def meanQ (l : List Q) : Q := (sumQ l).divQ (Q.ofNat l.length)

/-- Python's `round(x, 2)` (round-half-to-even at two decimal places,
modelled exactly over rationals). -/
def round2 (q : Q) : Q :=
  let s := q.mul (Q.ofNat 100)
  let f := s.floorQ
  let frac := s.sub (Q.ofInt f)
  let half : Q := ⟨1, 2⟩
  let r : Int :=
    if frac.blt half then f
    else if half.blt frac then f + 1
    else if f % 2 = 0 then f else f + 1
  mkQ r 100

/- ===================== String utilities =====================
Core `String` functions such as `trim`, `replace` and `toUpper` are
re-implemented over `List Char` so that all computations reduce in the
kernel.  They mirror the Python `str` methods used by the sources. -/

def strLower (s : String) : String := ⟨s.data.map Char.toLower⟩

def strUpper (s : String) : String := ⟨s.data.map Char.toUpper⟩

def trimL (cs : List Char) : List Char :=
  ((cs.dropWhile Char.isWhitespace).reverse.dropWhile Char.isWhitespace).reverse

/-- Python's `str.strip()` (whitespace from both ends). -/
def strTrim (s : String) : String := ⟨trimL s.data⟩

/-- Python's `str.strip(chars)` for an explicit character set. -/
def stripSet (set : List Char) (s : String) : String :=
  ⟨((s.data.dropWhile (set.contains ·)).reverse.dropWhile (set.contains ·)).reverse⟩

def startsWithL : List Char → List Char → Bool
  | _, [] => true
  | [], _ :: _ => false
  | a :: as, b :: bs => a == b && startsWithL as bs

def containsL : List Char → List Char → Bool
  | [], needle => startsWithL [] needle
  | hay@(_ :: t), needle => startsWithL hay needle || containsL t needle

/-- Python's `needle in hay` on strings. -/
def strContains (hay needle : String) : Bool := containsL hay.data needle.data

/-- Replacement scan with a step budget (each step consumes at least one
character, so a budget of the input length makes the budget-exhausted case
unreachable; the budget only makes the recursion structural). -/
def replaceLoop (rep : List Char) (p : Char) (ps : List Char) : Nat → List Char → List Char
  | 0, cs => cs
  | _ + 1, [] => []
  | n + 1, h :: t =>
    if startsWithL (h :: t) (p :: ps) then rep ++ replaceLoop rep p ps n (t.drop ps.length)
    else h :: replaceLoop rep p ps n t

/-- Python's `str.replace` (all non-overlapping occurrences, left to right). -/
def strReplace (s pat rep : String) : String :=
  match pat.data with
  | [] => s
  | p :: ps => ⟨replaceLoop rep.data p ps s.data.length s.data⟩

def splitOnChar (c : Char) : List Char → List (List Char)
  | [] => [[]]
  | h :: t =>
    let r := splitOnChar c t
    if h == c then [] :: r
    else
      match r with
      | [] => [[h]]
      | x :: xs => (h :: x) :: xs

/-- Python's `" ".join` / `", ".join`. -/
def joinSep (sep : String) : List String → String
  | [] => ""
  | [x] => x
  | x :: xs => x ++ sep ++ joinSep sep xs

def collapseWsAcc : Bool → List Char → List Char
  | _, [] => []
  | prevWs, h :: t =>
    if h.isWhitespace then
      if prevWs then collapseWsAcc true t else ' ' :: collapseWsAcc true t
    else h :: collapseWsAcc false t

/-- `re.sub(r"\s+", " ", ·)`: collapse every whitespace run to one space. -/
def collapseWs (cs : List Char) : List Char := collapseWsAcc false cs

def digitsToNat (cs : List Char) : Nat :=
  cs.foldl (fun acc c => acc * 10 + (c.toNat - '0'.toNat)) 0

/-- Value of the first maximal run of decimal digits in a character list
(the `str.extract(r"(\d+)")` step of the week filter). -/
def firstDigitRun (cs : List Char) : Option Nat :=
  match cs.dropWhile (fun c => !c.isDigit) with
  | [] => none
  | rest => some (digitsToNat (rest.takeWhile Char.isDigit))

/- Lexicographic code-point order on strings, as used by Python `sorted`. -/

def lexLe : List Char → List Char → Bool
  | [], _ => true
  | _ :: _, [] => false
  | a :: as, b :: bs =>
    if a.toNat < b.toNat then true
    else if b.toNat < a.toNat then false
    else lexLe as bs

def strLeB (a b : String) : Bool := lexLe a.data b.data

def insertKey (x : String) : List String → List String
  | [] => [x]
  | y :: ys => if strLeB x y then x :: y :: ys else y :: insertKey x ys

/-- Insertion sort in the Python `sorted` order (stable, ascending). -/
def sortKeys : List String → List String
  | [] => []
  | x :: xs => insertKey x (sortKeys xs)

def firstOccsAcc (seen : List String) : List String → List String
  | [] => []
  | x :: xs =>
    if seen.contains x then firstOccsAcc seen xs
    else x :: firstOccsAcc (x :: seen) xs

/-- First-occurrence deduplication, preserving encounter order (the effect
of building a Python `set`/`dict` and keeping first insertions). -/
def firstOccs (l : List String) : List String := firstOccsAcc [] l

/-- `sorted(set(l))` in Python: distinct values in ascending order. -/
def sortedDedup (l : List String) : List String := sortKeys (firstOccs l)

/- ===================== Data model =====================
A pandas cell is a string, a float (exact rational here), a date, or NaN.
Python `None` only arises from `row.get` on a missing column and is
modelled by `Option Cell` at the access sites. -/

structure CalDate where
  year : Int
  month : Nat
  day : Nat
deriving DecidableEq

inductive Cell where
  | str (s : String)
  | num (q : Q)
  | date (d : CalDate)
  | nan
deriving DecidableEq

def Cell.isNan : Cell → Bool
  | .nan => true
  | _ => false

def pad2 (n : Nat) : String := if n < 10 then "0" ++ toString n else toString n

def dateStr (d : CalDate) : String :=
  toString d.year ++ "-" ++ pad2 d.month ++ "-" ++ pad2 d.day

def stripTrailingZeros (cs : List Char) : List Char :=
  (cs.reverse.dropWhile (· == '0')).reverse

/-- Rendering of a float the way Python's `str` renders simple decimal
values ("3.0", "3.5", "-2.25").  Rationals whose denominator divides no
power of ten are not exact floats; they are rendered as "n/d" here. -/
def qDecimalStr (q : Q) : String :=
  if q.den = 1 then toString q.num ++ ".0"
  else
    match (List.range 21).find? (fun k => 10 ^ k % q.den = 0) with
    | some k =>
      let scaled : Nat := q.num.natAbs * (10 ^ k / q.den)
      let ip := scaled / 10 ^ k
      let fp := scaled % 10 ^ k
      let fpad : List Char := List.replicate (k - (toString fp).data.length) '0' ++ (toString fp).data
      let fstr := stripTrailingZeros fpad
      (if q.num < 0 then "-" else "") ++ toString ip ++ "." ++
        (if fstr.isEmpty then "0" else (⟨fstr⟩ : String))
    | none => toString q.num ++ "/" ++ toString q.den

/-- Python's `str(cell)` (`astype(str)` on a pandas column). -/
def strOfCell : Cell → String
  | .str s => s
  | .num q => qDecimalStr q
  | .date d => dateStr d
  | .nan => "nan"

def cellTruthy : Cell → Bool
  | .str s => s ≠ ""
  | .num q => q ≠ Q.ofNat 0
  | .date _ => true
  | .nan => true

def optCellTruthy : Option Cell → Bool
  | none => false
  | some c => cellTruthy c

/-- A dataframe: named columns and rows of cells (a row is aligned with
`cols`; out-of-range accesses read as NaN). -/
structure DataFrame where
  cols : List String
  rows : List (List Cell)
deriving DecidableEq

/-- pandas `df.empty`: true when either axis has length zero. -/
def DataFrame.isEmpty (df : DataFrame) : Bool := df.rows.isEmpty || df.cols.isEmpty

def DataFrame.colIdx (df : DataFrame) (c : String) : Option Nat :=
  df.cols.findIdx? (· == c)

/-- `row.get(label)`: `none` when the label is not a column (Python `None`),
otherwise the stored cell (NaN for a ragged row). -/
def cellAt (df : DataFrame) (row : List Cell) (c : String) : Option Cell :=
  (df.colIdx c).map (fun i => row.getD i Cell.nan)

/-- `df[c]` as a list of cells (empty when the label is missing). -/
def DataFrame.colValues (df : DataFrame) (c : String) : List Cell :=
  match df.colIdx c with
  | some i => df.rows.map (fun r => r.getD i Cell.nan)
  | none => []

/- ===================== modules/data_handler.py ===================== -/

/-- `_norm` restricted to strings (the only usage in tracker.py): Python
returns `s.strip()` for a `str` argument; truthiness is `strTrim s ≠ ""`. -/
def normStr (s : String) : String := strTrim s

def lowKey (s : String) : String := strTrim (strLower s)

def simpleKey (s : String) : String :=
  ⟨(lowKey s).data.filter (fun c => 97 ≤ c.toNat && c.toNat ≤ 122)⟩

/-- `pick_first_available_column`.  The Python code builds `lower_map` /
`simple_map` with `setdefault` (first column wins for a given key) and then
scans the candidates; that is exactly "first candidate having a column with
the same key, returning the first such column". -/
def pick_first_available_column (df : DataFrame) (candidates : List String) : Option String :=
  if df.isEmpty then none
  else
    match candidates.findSome? (fun cand => df.cols.find? (fun col => lowKey col == lowKey cand)) with
    | some c => some c
    | none =>
      candidates.findSome? (fun cand => df.cols.find? (fun col => simpleKey col == simpleKey cand))

/-- Days since 1970-01-01 of a civil date (standard days-from-civil
computation; stands in for Python's `datetime` day arithmetic). -/
def daysFromCivil (y : Int) (m d : Nat) : Int :=
  let y' : Int := if m ≤ 2 then y - 1 else y
  let era : Int := Int.fdiv y' 400
  let yoe : Int := y' - era * 400
  let mp : Int := (m : Int) + (if 2 < m then -3 else 9)
  let doy : Int := Int.fdiv (153 * mp + 2) 5 + (d : Int) - 1
  let doe : Int := yoe * 365 + Int.fdiv yoe 4 - Int.fdiv yoe 100 + doy
  era * 146097 + doe - 719468

/-- Python `date.weekday()`: Monday = 0.  1970-01-01 was a Thursday (3). -/
def weekdayMon0 (y : Int) (m d : Nat) : Nat :=
  ((daysFromCivil y m d + 3) % 7).toNat

/-- `week_of_month`: `ceil((day + weekday(first_of_month)) / 7)`. -/
def week_of_month (d : CalDate) : Nat :=
  (d.day + weekdayMon0 d.year d.month 1 + 6) / 7

def isLeapYear (y : Int) : Bool :=
  (y % 4 == 0 && !(y % 100 == 0)) || y % 400 == 0

def daysInMonth (y : Int) (m : Nat) : Nat :=
  if m = 2 then (if isLeapYear y then 29 else 28)
  else if m = 4 ∨ m = 6 ∨ m = 9 ∨ m = 11 then 30
  else 31

/-- The canonical date strings accepted by `pd.to_datetime`:
`YYYY-MM-DD` (also with `/` separators), validated against the calendar.
Other spellings the pandas parser accepts (month names, US order, time
suffixes, …) are not modelled and parse to `none`, which the mask treats
like an unparseable cell. -/
def parseDateStr (s : String) : Option CalDate :=
  let cs := trimL s.data
  let y := cs.takeWhile Char.isDigit
  match cs.dropWhile Char.isDigit with
  | [] => none
  | sep1 :: r2 =>
    if (sep1 == '-' || sep1 == '/') && y.length = 4 then
      let mo := r2.takeWhile Char.isDigit
      match r2.dropWhile Char.isDigit with
      | [] => none
      | sep2 :: r4 =>
        if (sep2 == '-' || sep2 == '/') && 1 ≤ mo.length && mo.length ≤ 2 then
          let d := r4.takeWhile Char.isDigit
          let r5 := r4.dropWhile Char.isDigit
          if r5.isEmpty && 1 ≤ d.length && d.length ≤ 2 then
            let yn : Int := (digitsToNat y : Int)
            let mn := digitsToNat mo
            let dn := digitsToNat d
            if 1 ≤ mn && mn ≤ 12 && 1 ≤ dn && dn ≤ daysInMonth yn mn then
              some ⟨yn, mn, dn⟩
            else none
          else none
        else none
    else none

/-- `to_date`: NaN is not a date (`pd.isna`); `datetime`/`date` cells pass
through; strings go through `pd.to_datetime(·, errors="coerce")`, embedded
for its canonical ISO format by `parseDateStr` (a failed parse is NaT,
which the mask then excludes, matching the `none` result here).  Numeric
cells, which pandas would read as an epoch-nanoseconds timestamp, are not
modelled. -/
def to_date : Cell → Option CalDate
  | .date d => some d
  | .str s => parseDateStr s
  | _ => none

/-- Decimal-literal parsing of `pd.to_numeric(·, errors="coerce")` on a
string: optional sign, digits, optional fractional part (exponents are not
used by the data and are not modelled). -/
def parseNumeric (s : String) : Option Q :=
  let cs := trimL s.data
  let (sgn, cs) : Int × List Char :=
    match cs with
    | '-' :: r => (-1, r)
    | '+' :: r => (1, r)
    | _ => (1, cs)
  let ip := cs.takeWhile Char.isDigit
  let rest := cs.dropWhile Char.isDigit
  match rest with
  | [] => if ip.isEmpty then none else some (mkQ (sgn * (digitsToNat ip : Int)) 1)
  | '.' :: r2 =>
    let fp := r2.takeWhile Char.isDigit
    let rest2 := r2.dropWhile Char.isDigit
    if !rest2.isEmpty then none
    else if ip.isEmpty && fp.isEmpty then none
    else some (mkQ (sgn * ((digitsToNat ip * 10 ^ fp.length + digitsToNat fp : Nat) : Int)) (10 ^ fp.length))
  | _ => none

/-- Elementwise `pd.to_numeric(·, errors="coerce")`: numbers pass through,
NaN stays missing, strings are parsed, anything else coerces to NaN. -/
def toNumericCell : Cell → Option Q
  | .num q => some q
  | .str s => parseNumeric s
  | _ => none

def GRADE_MAP : List (String × Q) :=
  [("A+", ⟨5, 1⟩), ("A", ⟨5, 1⟩), ("A-", ⟨47, 10⟩),
   ("B+", ⟨43, 10⟩), ("B", ⟨4, 1⟩), ("B-", ⟨37, 10⟩),
   ("C+", ⟨33, 10⟩), ("C", ⟨3, 1⟩), ("C-", ⟨27, 10⟩),
   ("D+", ⟨23, 10⟩), ("D", ⟨2, 1⟩), ("D-", ⟨17, 10⟩),
   ("E", ⟨1, 1⟩), ("F", ⟨0, 1⟩)]

/-- `letter_grade_to_score`: None/NaN give no score, otherwise
`str(val).strip().upper()` is looked up in the fixed grade map. -/
def letter_grade_to_score : Cell → Option Q
  | .nan => none
  | c => GRADE_MAP.lookup (strUpper (strTrim (strOfCell c)))

/-- `average_of_grades`: numeric coercions win when any entry is numeric;
otherwise letter grades are mapped and averaged; `none` when nothing is
usable. -/
def average_of_grades (series : List Cell) : Option Q :=
  let s_num := series.map toNumericCell
  if s_num.any Option.isSome then
    let vals := s_num.filterMap id
    if vals.isEmpty then none else some (round2 (meanQ vals))
  else
    let mapped := (series.map letter_grade_to_score).filterMap id
    if mapped.isEmpty then none else some (round2 (meanQ mapped))

/- Text cleaning (`YESNO_PATTERNS`, `BULLET_LINE`, `CHECKLIST_KEYS`,
`_is_checklist_line`, `clean_comment`, `clean_output`). -/

def isWordChar (c : Char) : Bool := c.isAlphanum || c == '_'

/-- The keywords of `YESNO_PATTERNS` with whether `-?` precedes them
(`":\s*-?\s*Yes\b"` … `":\s*Accurate\b"`), lowered for `re.IGNORECASE`. -/
def YESNO_KEYWORDS : List (String × Bool) :=
  [("yes", true), ("no", true), ("yes/no", true),
   ("resolved", true), ("escalated", true), ("closed", true),
   ("accurate", false)]

def boundaryAfter : List Char → Bool
  | [] => true
  | c :: _ => !isWordChar c

def matchKwAt (cs : List Char) (kw : String) : Bool :=
  startsWithL cs kw.data && boundaryAfter (cs.drop kw.data.length)

/-- Does one of the `YESNO_PATTERNS` match starting at this position of the
(lowercased) line?  `":"`, then `\s*`, then an optional `-` followed by
`\s*` where the pattern allows it, then the keyword at a word boundary. -/
def yesnoHere (cs : List Char) : Bool :=
  match cs with
  | ':' :: rest =>
    let r1 := rest.dropWhile Char.isWhitespace
    YESNO_KEYWORDS.any (fun kd =>
      let r2 :=
        if kd.2 then
          match r1 with
          | '-' :: r => r.dropWhile Char.isWhitespace
          | _ => r1
        else r1
      matchKwAt r2 kd.1)
  | _ => false

/-- `YESNO_SUFFIX.search(line)` (case-insensitive search at any position). -/
def yesnoSearch : List Char → Bool
  | [] => false
  | c :: t => yesnoHere (c :: t) || yesnoSearch t

/-- `BULLET_LINE.match(line)`: `^\s*(?:\d+[.)]|[-*•·])\s+`. -/
def bulletMatch (cs : List Char) : Bool :=
  let r := cs.dropWhile Char.isWhitespace
  let ds := r.takeWhile Char.isDigit
  let afterDigits := r.drop ds.length
  let alt1 :=
    !ds.isEmpty &&
      (match afterDigits with
       | c :: w :: _ => (c == '.' || c == ')') && w.isWhitespace
       | _ => false)
  let alt2 :=
    match r with
    | c :: w :: _ => (c == '-' || c == '*' || c == '•' || c == '·') && w.isWhitespace
    | _ => false
  alt1 || alt2

def CHECKLIST_KEYS : List String :=
  ["checked for previous tickets", "preference contact method", "preferred contact method",
   "contact type", "ms teams chat integration", "ms teams integration", "short description",
   "configuration item", "category", "computer name documented", "error screenshot attached",
   "ticket state", "work note documentation", "additional assistance", "call opening followed",
   "user validation procedure", "display empathy & assurance", "call holding procedure",
   "professional and positive tone", "sufficient probing", "proper 3 reminder process",
   "bomgar chat messages attached", "computer name documented/ bomgar chat messages attached"]

def stripQuotes (s : String) : String := stripSet ['"'] s

/-- `_is_checklist_line`. -/
def isChecklistLine (line : String) : Bool :=
  let L := strLower (stripQuotes (strTrim line))
  if L = "" then true
  else if startsWithL L.data "observations".data then true
  else if strContains L "observation/areas for improvement" then true
  else if CHECKLIST_KEYS.any (fun k => strContains L k) then true
  else if yesnoSearch (strLower line).data then true
  else bulletMatch line.data

/-- `clean_comment` (the `isinstance(raw, str)` guard is carried by the
`String` type of the argument; all call sites pass `str(...)` values). -/
def clean_comment (raw : String) : String :=
  let raw' := strReplace raw "\r" "\n"
  let lines := (splitOnChar '\n' raw'.data).map (fun cs => strTrim ⟨cs⟩)
  let kept := (lines.filter (fun ln =>
      !isChecklistLine ln && ¬((stripSet [' ', '-', '•', '*', '·', '\t', '"', '\''] ln).data.length < 3))).map
    (fun ln => strTrim (stripQuotes ln))
  strTrim ⟨collapseWs (joinSep " " kept).data⟩

def OUTPUT_BOILERPLATE : List String :=
  ["Here is a concise summary of Areas to Improve:",
   "Here is a summary of Areas to Improve:",
   "Based on the raw comments,",
   "Here are the areas to improve:",
   "Here are the Areas to Improve:",
   "Here is the summary of Areas to Improve:"]

/-- `clean_output`. -/
def clean_output (text : String) : String :=
  if text = "" then ""
  else strTrim (OUTPUT_BOILERPLATE.foldl (fun t p => strReplace t p "") text)

/- ===================== modules/groq_client.py =====================
The hosted Groq service, the environment variables and the streamlit
session are external to the program.  They are modelled by an oracle
record `GroqEnv` (key strings plus the outcome of `client.models.list`
and of `chat.completions.create` per key) and an explicit session state
`GroqState`.  Python's unbounded retry recursion is given a fuel
parameter; exceptions are `Except.error` values of their message string. -/

structure GroqEnv where
  envKeys : List String
  testKey : String → Except String Unit
  complete : String → String → Except String String

/-- `st.session_state.groq_key_index` / `groq_key_limits` (a defaultdict
of booleans, modelled as the list of indices currently marked `True`). -/
structure GroqState where
  keyIndex : Nat
  limited : List Nat
deriving DecidableEq

def isLimited (st : GroqState) (i : Nat) : Bool := st.limited.contains i

def markLimited (st : GroqState) (i : Nat) : GroqState :=
  ⟨st.keyIndex, i :: st.limited⟩

def setIndex (st : GroqState) (i : Nat) : GroqState := ⟨i, st.limited⟩

/-- `for i in range(len(api_keys)): limits[i] = False` followed by
`groq_key_index = 0`. -/
def resetLimits (st : GroqState) (n : Nat) : GroqState :=
  ⟨0, st.limited.filter (fun j => n ≤ j)⟩

/-- `get_api_keys_from_env`: the values of `GROQ_API_KEY_1..20`, stripped,
empties removed, deduplicated preserving order. -/
def get_api_keys_from_env (env : GroqEnv) : List String :=
  firstOccs (((env.envKeys.take 20).map strTrim).filter (fun k => k ≠ ""))

def RATE_LIMIT_PATTERNS : List String :=
  ["rate limit", "quota", "limit exceeded", "too many requests", "429", "insufficient_quota"]

/-- `is_rate_limit_error`. -/
def is_rate_limit_error (msg : String) : Bool :=
  if msg = "" then false
  else RATE_LIMIT_PATTERNS.any (fun p => strContains (strLower msg) p)

/-- The `for i in range(1, len(api_keys))` loop of `get_next_groq_client`:
try each subsequent index, skipping empty keys and limited indices,
marking a key limited when its test fails with a rate-limit message. -/
def tryOtherKeys (env : GroqEnv) (keys : List String) (cur n : Nat) :
    List Nat → GroqState → Option Nat × GroqState
  | [], st => (none, st)
  | i :: is, st =>
    let idx := (cur + i) % n
    let key := keys.getD idx ""
    if key ≠ "" && !isLimited st idx then
      match env.testKey key with
      | .ok _ => (some idx, setIndex st idx)
      | .error e =>
        tryOtherKeys env keys cur n is (if is_rate_limit_error e then markLimited st idx else st)
    else tryOtherKeys env keys cur n is st

/-- `get_next_groq_client`.  Python recurses without bound after resetting
all limits (and would raise `IndexError` for an out-of-range session
index); the fuel bounds the recursion depth and the out-of-range case is
modelled as "no client". -/
def get_next_groq_client (env : GroqEnv) : Nat → GroqState → Option Nat × GroqState
  | 0, st => (none, st)
  | fuel + 1, st =>
    let keys := get_api_keys_from_env env
    let n := keys.length
    if n = 0 then (none, st)
    else if st.keyIndex < n then
      let cur := st.keyIndex
      let curKey := keys.getD cur ""
      let afterCurrent : GroqState → Option Nat × GroqState := fun st1 =>
        match tryOtherKeys env keys cur n (List.range' 1 (n - 1)) st1 with
        | (some k, st2) => (some k, st2)
        | (none, st2) =>
          if (List.range n).all (fun i => isLimited st2 i) then
            get_next_groq_client env fuel (resetLimits st2 n)
          else (none, st2)
      if curKey ≠ "" && !isLimited st cur then
        match env.testKey curKey with
        | .ok _ => (some cur, st)
        | .error e =>
          afterCurrent (if is_rate_limit_error e then markLimited st cur else st)
      else afterCurrent st
    else (none, st)

/-- `groq_chat_completion`: acquire a client, run the chat completion with
the fixed system message and the given user prompt, clean the output; any
exception is caught (marking the current key on a rate-limit message) and
becomes the empty string.  The response is modelled as its content. -/
def groq_chat_completion (env : GroqEnv) (fuel : Nat) (gst : GroqState) (prompt : String) :
    String × GroqState :=
  match get_next_groq_client env fuel gst with
  | (none, st') => ("", st')
  | (some idx, st') =>
    let key := (get_api_keys_from_env env).getD idx ""
    match env.complete key prompt with
    | .ok raw => (strTrim (clean_output raw), st')
    | .error msg =>
      if is_rate_limit_error msg then ("", markLimited st' st'.keyIndex)
      else ("", st')

/- ===================== modules/tracker.py ===================== -/

def CAND_EMPLOYEE_NAME : List String := ["Employee Name", "Analyst Name", "Trainee", "Analyst", "Name"]

def CAND_TRAINEE_NAME : List String := ["Trainee", "Trainee Name", "Analyst Name", "Employee Name", "Analyst"]

def CAND_ANALYST_NAME : List String := ["Analyst Name", "Employee Name", "Analyst"]

def CAND_TEAM_LEAD : List String := ["Team Lead", "Team Leader", "TL", "Manager", "Reporting Manager"]

def CAND_MANAGER : List String := ["Manager", "Reporting Manager", "Supervisor"]

def CAND_QUALITY_ASSESSOR : List String := ["Assessor", "Quality Assessor", "QA", "Quality Analyst", "Analyst Name", "Coach"]

def CAND_WEEK : List String := ["Week", "Week Number", "Week_of_Month", "WOM"]

def CAND_DATE : List String := ["Date", "Assessed On", "Created", "Assessment Date"]

def CAND_SN_RATING : List String := ["Trainee rating", "Trainee Rating", "Rating"]

def CAND_MANUAL_GRADE : List String := ["Grade", "Score", "Marks"]

def CAND_COMMENTS : List String := ["Comments", "Notes", "QA Comments", "Reviewer Comments"]

/-- Python's `a or b` on column-name results (None and `""` are falsy). -/
def orFalsy (a b : Option String) : Option String :=
  match a with
  | some s => if s = "" then b else some s
  | none => b

structure PeopleCols where
  name_col : Option String
  tl_col : Option String
  qa_col : Option String
  week_col : Option String
  date_col : Option String
  sn_rating_col : Option String
  manual_grade_col : Option String
  comments_col : Option String
deriving DecidableEq

/-- `extract_people_fields`. -/
def extract_people_fields (df : DataFrame) : PeopleCols :=
  { name_col := orFalsy (pick_first_available_column df CAND_EMPLOYEE_NAME)
      (orFalsy (pick_first_available_column df CAND_TRAINEE_NAME)
               (pick_first_available_column df CAND_ANALYST_NAME)),
    tl_col := orFalsy (pick_first_available_column df CAND_TEAM_LEAD)
      (pick_first_available_column df CAND_MANAGER),
    qa_col := pick_first_available_column df CAND_QUALITY_ASSESSOR,
    week_col := pick_first_available_column df CAND_WEEK,
    date_col := pick_first_available_column df CAND_DATE,
    sn_rating_col := pick_first_available_column df CAND_SN_RATING,
    manual_grade_col := pick_first_available_column df CAND_MANUAL_GRADE,
    comments_col := pick_first_available_column df CAND_COMMENTS }

/-- `if col and col in df.columns` — truthy column label present in the frame. -/
def colActive (df : DataFrame) : Option String → Bool
  | some c => c ≠ "" && df.cols.contains c
  | none => false

/-- `get_week_filter_mask`.  In the week branch the first digit run of
`str(cell)` is compared with `week_n` (a failed extraction is NaN and
compares unequal); in the date branch month and week-of-month must both
match; otherwise the mask is all-True.  The trailing `fillna(False)` is a
no-op since boolean comparisons with NaN are already False. -/
def get_week_filter_mask (df : DataFrame) (week_col date_col : Option String)
    (month_n week_n : Nat) : List Bool :=
  if df.isEmpty then []
  else if colActive df week_col then
    (df.colValues (week_col.getD "")).map
      (fun c => firstDigitRun (strOfCell c).data == some week_n)
  else if colActive df date_col then
    (df.colValues (date_col.getD "")).map
      (fun c =>
        match to_date c with
        | some d => d.month == month_n && week_of_month d == week_n
        | none => false)
  else List.replicate df.rows.length true

/-- `df[mask]` (boolean row selection); `generate_tracker` skips the
selection entirely for a zero-length frame. -/
def applyMask (df : DataFrame) (mask : List Bool) : DataFrame :=
  if df.rows.length = 0 then df
  else ⟨df.cols, ((df.rows.zip mask).filter (fun p => p.2)).map (fun p => p.1)⟩

/-- Modelled from the spec: `build_employee_key` is imported from
`modules.data_handler` in tracker.py but its definition is absent from the
provided sources.  Per the spec, "employee identity keys are
case/whitespace normalized for matching across sources": the key of a
non-missing value is `str(value)` trimmed and lowercased, and a missing
value (None/NaN) or an all-whitespace name yields no key (falsy, so the
row is skipped). -/
def build_employee_key : Option Cell → Option String
  | none => none
  | some .nan => none
  | some c =>
    let k := strLower (strTrim (strOfCell c))
    if k = "" then none else some k

/-- `df[name_col].dropna().astype(str).map(build_employee_key)` with the
keyless results dropped (the subsequent `set(....dropna())`). -/
def namesOf (df : DataFrame) (nameCol : Option String) : List String :=
  match nameCol with
  | none => []
  | some nc =>
    if nc = "" then []
    else ((df.colValues nc).filter (fun c => !c.isNan)).filterMap
      (fun c => build_employee_key (some (.str (strOfCell c))))

/-- The per-employee accumulator of `per_employee`. -/
structure EmpAgg where
  team_leads : List String
  assessors : List String
  comments : List String
  sn_ratings : List Cell
  manual_grades : List Cell
deriving DecidableEq

def EmpAgg.default : EmpAgg := ⟨[], [], [], [], []⟩

/-- The defaultdict of `per_employee`, as an association list. -/
abbrev AggMap := List (String × EmpAgg)

def aggGet (d : AggMap) (k : String) : EmpAgg :=
  (d.lookup k).getD EmpAgg.default

def aggUpd (d : AggMap) (k : String) (f : EmpAgg → EmpAgg) : AggMap :=
  if d.any (fun p => p.1 == k) then
    d.map (fun p => if p.1 == k then (p.1, f p.2) else p)
  else d ++ [(k, f EmpAgg.default)]

/-- `if value: list.append(str(value))` for team lead / assessor / comment
cells. -/
def appendIfTruthy (l : List String) : Option Cell → List String
  | some c => if cellTruthy c then l ++ [strOfCell c] else l
  | none => l

/-- `if value is not None: list.append(value)` for rating / grade cells
(NaN is not None, so NaN cells are appended). -/
def appendIfSome (l : List Cell) : Option Cell → List Cell
  | some c => l ++ [c]
  | none => l

/-- `row.get(cols[...]) if cols.get(...) else None`. -/
def optColGet (df : DataFrame) (row : List Cell) : Option String → Option Cell
  | some c => if c = "" then none else cellAt df row c
  | none => none

/-- The accumulator update one row performs on its employee's entry. -/
def stepUpdate (df : DataFrame) (cols : PeopleCols) (row : List Cell) (a : EmpAgg) : EmpAgg :=
  { team_leads := appendIfTruthy a.team_leads (optColGet df row cols.tl_col),
    assessors := appendIfTruthy a.assessors (optColGet df row cols.qa_col),
    comments := appendIfTruthy a.comments (optColGet df row cols.comments_col),
    sn_ratings := appendIfSome a.sn_ratings (optColGet df row cols.sn_rating_col),
    manual_grades := appendIfSome a.manual_grades (optColGet df row cols.manual_grade_col) }

def perEmployeeStep (df : DataFrame) (cols : PeopleCols) (nc : String)
    (d : AggMap) (row : List Cell) : AggMap :=
  match build_employee_key (cellAt df row nc) with
  | none => d
  | some name => aggUpd d name (stepUpdate df cols row)

/-- `per_employee`. -/
def per_employee (df : DataFrame) (cols : PeopleCols) : AggMap :=
  match cols.name_col with
  | none => []
  | some nc =>
    if nc = "" || df.isEmpty then []
    else df.rows.foldl (perEmployeeStep df cols nc) []

/-- `[_norm(x) for x in l if _norm(x)]` on a list of strings. -/
def normNonempty (l : List String) : List String :=
  (l.map normStr).filter (fun s => s ≠ "")

/-- The scan of `Counter(...).most_common(1)`: among the keys in first-
occurrence order, the one with the strictly greatest count wins, earlier
keys winning ties. -/
def bestOf (l : List String) : List String → Option String
  | [] => none
  | k :: ks =>
    match bestOf l ks with
    | none => some k
    | some b => if l.count b > l.count k then some b else some k

/-- `Counter(l).most_common(1)[0][0]` (None for an empty counter). -/
def mostCommon (l : List String) : Option String := bestOf l (firstOccs l)

/-- `synthesize_areas_to_improve`.  `_norm` is defined at import time, so
the `except NameError` fallback is dead code; the employee name and seed
examples are unused by the body. -/
def synthesize_areas_to_improve (env : GroqEnv) (fuel : Nat) (gst : GroqState)
    (all_comments : List String) (_employee_name : String) (_seed_examples : List String) :
    String × GroqState :=
  let cleaned_bits := (all_comments.filter (fun c => normStr c ≠ "")).map
    (fun c => strTrim (clean_comment c))
  if cleaned_bits.isEmpty then ("", gst)
  else
    let combined := joinSep " " cleaned_bits
    let user_prompt :=
      "Raw observations (cleaned): " ++ combined ++ "\n" ++
      "Write only 2â€“3 sentences focusing on specific improvement actions and missed steps. " ++
      "Avoid strengths, disclaimers, or generic best practices. Do not include personally identifiable customer data."
    groq_chat_completion env fuel gst user_prompt

/-- An output cell of the tracker: a string or a number. -/
inductive OutVal where
  | s (v : String)
  | n (q : Q)
deriving DecidableEq

/-- One record of the tracker output (the fixed twelve fields). -/
structure TrackerRec where
  employeeName : String
  empId : String
  organization : String
  teamLead : String
  status : String
  qualityAssessors : String
  week : String
  snCount : OutVal
  snAvg : OutVal
  manualCount : OutVal
  manualAvg : OutVal
  areasToImprove : String
deriving DecidableEq

def TrackerRec.empty : TrackerRec :=
  ⟨"", "", "", "", "", "", "", .s "", .s "", .s "", .s "", ""⟩

/-- `dt.date(1900, month_n, 1).strftime("%b")` (Python raises for a month
outside 1..12; modelled as ""). -/
def monthAbbrev : Nat → String
  | 1 => "Jan" | 2 => "Feb" | 3 => "Mar" | 4 => "Apr" | 5 => "May" | 6 => "Jun"
  | 7 => "Jul" | 8 => "Aug" | 9 => "Sep" | 10 => "Oct" | 11 => "Nov" | 12 => "Dec"
  | _ => ""

def col_order : List String :=
  ["Employee Name", "Emp ID", "Organization", "Team Lead", "Status", "Quality Assessors", "Week",
   "Service Now Assessments Count", "Service Now Assessments Average Rating",
   "Manual Assessments Count", "Manual Assessments Average Rating", "Areas to Improve"]

/-- The tracker dataframe: `pd.DataFrame.from_records(records)` re-indexed
to the fixed `col_order` layout. -/
structure Tracker where
  cols : List String
  rows : List TrackerRec
deriving DecidableEq

/-- The loop body of `generate_tracker` for one employee name. -/
def mkTrackerRec (env : GroqEnv) (fuel : Nat) (agg_manual agg_sn : AggMap)
    (month_n week_n : Nat) (seed : List String) (gst : GroqState) (name : String) :
    TrackerRec × GroqState :=
  let am := aggGet agg_manual name
  let asn := aggGet agg_sn name
  let team_leads := am.team_leads ++ asn.team_leads
  let assessors := am.assessors ++ asn.assessors
  let comments := am.comments ++ asn.comments
  let sn_ratings := (asn.sn_ratings.map toNumericCell).filterMap id
  let team_lead_final := mostCommon (normNonempty team_leads)
  let assessors_joined := joinSep ", " (sortedDedup (normNonempty assessors))
  let service_now_count := sn_ratings.length
  let service_now_avg : Option Q :=
    if sn_ratings.isEmpty then none else some (round2 (meanQ sn_ratings))
  let manual_count := am.manual_grades.length
  let manual_avg : Option Q :=
    if manual_count = 0 then none else average_of_grades am.manual_grades
  let res := synthesize_areas_to_improve env fuel gst comments name seed
  ({ employeeName := name,
     empId := "",
     organization := "",
     teamLead := team_lead_final.getD "",
     status := "",
     qualityAssessors := assessors_joined,
     week := monthAbbrev month_n ++ " - Week " ++ toString week_n,
     snCount := if service_now_count = 0 then .s "" else .n (Q.ofNat service_now_count),
     snAvg := match service_now_avg with | some q => .n q | none => .s "",
     manualCount := if manual_count = 0 then .s "" else .n (Q.ofNat manual_count),
     manualAvg := match manual_avg with | some q => .n q | none => .s "",
     areasToImprove := res.1 }, res.2)

/-- The `for name in all_names` loop, threading the session state of the
LLM client. -/
def buildRecords (env : GroqEnv) (fuel : Nat) (agg_manual agg_sn : AggMap)
    (month_n week_n : Nat) (seed : List String) :
    GroqState → List String → List TrackerRec × GroqState
  | gst, [] => ([], gst)
  | gst, name :: names =>
    let r := mkTrackerRec env fuel agg_manual agg_sn month_n week_n seed gst name
    let rest := buildRecords env fuel agg_manual agg_sn month_n week_n seed r.2 names
    (r.1 :: rest.1, rest.2)

/-- The week mask of a table, with the columns resolved from that table. -/
def weekMask (df : DataFrame) (month_n week_n : Nat) : List Bool :=
  get_week_filter_mask df (extract_people_fields df).week_col (extract_people_fields df).date_col
    month_n week_n

/-- The table restricted to the target week. -/
def filteredBy (df : DataFrame) (month_n week_n : Nat) : DataFrame :=
  applyMask df (weekMask df month_n week_n)

/-- The employee keys a table contributes (computed on the filtered table
with the columns resolved from the unfiltered one, as in the source). -/
def namesOfTable (df : DataFrame) (month_n week_n : Nat) : List String :=
  namesOf (filteredBy df month_n week_n) (extract_people_fields df).name_col

/-- `sorted(set(manual_names).union(set(sn_names)))`. -/
def allNamesOf (manual_df sn_df : DataFrame) (month_n week_n : Nat) : List String :=
  sortedDedup (namesOfTable manual_df month_n week_n ++ namesOfTable sn_df month_n week_n)

/-- The per-employee aggregation of a table inside `generate_tracker`. -/
def aggOfTable (df : DataFrame) (month_n week_n : Nat) : AggMap :=
  per_employee (filteredBy df month_n week_n) (extract_people_fields df)

/-- `generate_tracker`. -/
def generate_tracker (env : GroqEnv) (fuel : Nat) (gst : GroqState)
    (manual_df sn_df : DataFrame) (month_n week_n : Nat) (seed_examples : List String) :
    Tracker × GroqState :=
  let agg_manual := aggOfTable manual_df month_n week_n
  let agg_sn := aggOfTable sn_df month_n week_n
  let all_names := allNamesOf manual_df sn_df month_n week_n
  let res := buildRecords env fuel agg_manual agg_sn month_n week_n seed_examples gst all_names
  (⟨col_order, res.1⟩, res.2)

/- ===================== Order and deduplication lemmas ===================== -/

/-- The sort order as a relation. -/
def strLe (a b : String) : Prop := strLeB a b = true

theorem lexLe_total : ∀ as bs : List Char, lexLe as bs = true ∨ lexLe bs as = true := by
  intro as
  induction as with
  | nil => intro bs; left; rfl
  | cons a as ih =>
    intro bs
    cases bs with
    | nil => right; rfl
    | cons b bs =>
      by_cases h1 : a.toNat < b.toNat
      · left; simp [lexLe, h1]
      · by_cases h2 : b.toNat < a.toNat
        · right; simp [lexLe, h2]
        · rcases ih bs with h | h
          · left; simp [lexLe, h1, h2, h]
          · right; simp [lexLe, h1, h2, h]

theorem lexLe_trans : ∀ as bs cs : List Char,
    lexLe as bs = true → lexLe bs cs = true → lexLe as cs = true := by
  intro as
  induction as with
  | nil => intro bs cs _ _; rfl
  | cons a as ih =>
    intro bs cs hab hbc
    cases bs with
    | nil => simp [lexLe] at hab
    | cons b bs =>
      cases cs with
      | nil => simp [lexLe] at hbc
      | cons c cs =>
        simp only [lexLe] at hab hbc ⊢
        rcases Nat.lt_trichotomy a.toNat b.toNat with h1 | h1 | h1
        · rcases Nat.lt_trichotomy b.toNat c.toNat with h2 | h2 | h2
          · simp [show a.toNat < c.toNat by omega]
          · simp [show a.toNat < c.toNat by omega]
          · rw [if_neg (by omega), if_pos h2] at hbc
            simp at hbc
        · rcases Nat.lt_trichotomy b.toNat c.toNat with h2 | h2 | h2
          · simp [show a.toNat < c.toNat by omega]
          · have hab' : lexLe as bs = true := by
              rw [if_neg (by omega), if_neg (by omega)] at hab; exact hab
            have hbc' : lexLe bs cs = true := by
              rw [if_neg (by omega), if_neg (by omega)] at hbc; exact hbc
            rw [if_neg (by omega), if_neg (by omega)]
            exact ih bs cs hab' hbc'
          · rw [if_neg (by omega), if_pos h2] at hbc
            simp at hbc
        · rw [if_neg (by omega), if_pos h1] at hab
          simp at hab

theorem strLe_total (a b : String) : strLe a b ∨ strLe b a := lexLe_total a.data b.data

theorem strLe_trans {a b c : String} (h1 : strLe a b) (h2 : strLe b c) : strLe a c :=
  lexLe_trans a.data b.data c.data h1 h2

theorem mem_insertKey {z x : String} : ∀ l, z ∈ insertKey x l ↔ z = x ∨ z ∈ l := by
  intro l
  induction l with
  | nil => simp [insertKey]
  | cons y ys ih =>
    by_cases h : strLeB x y
    · simp [insertKey, h]
    · simp only [insertKey, h]
      simp [ih]
      tauto

theorem insertKey_perm (x : String) : ∀ l, List.Perm (insertKey x l) (x :: l) := by
  intro l
  induction l with
  | nil => simp [insertKey]
  | cons y ys ih =>
    by_cases h : strLeB x y
    · simp [insertKey, h]
    · simp only [insertKey, h, Bool.false_eq_true, if_false]
      exact (ih.cons y).trans (List.Perm.swap x y ys)

theorem sortKeys_perm : ∀ l, List.Perm (sortKeys l) l := by
  intro l
  induction l with
  | nil => simp [sortKeys]
  | cons x xs ih =>
    exact (insertKey_perm x (sortKeys xs)).trans (ih.cons x)

theorem pairwise_insertKey {x : String} :
    ∀ {l}, List.Pairwise strLe l → List.Pairwise strLe (insertKey x l) := by
  intro l
  induction l with
  | nil => intro _; simp [insertKey, List.Pairwise]
  | cons y ys ih =>
    intro h
    by_cases hxy : strLeB x y
    · simp only [insertKey, hxy, if_true]
      refine List.Pairwise.cons ?_ h
      intro z hz
      cases hz with
      | head => exact hxy
      | tail _ hz => exact strLe_trans hxy (List.rel_of_pairwise_cons h hz)
    · simp only [insertKey, hxy, Bool.false_eq_true, if_false]
      refine List.Pairwise.cons ?_ (ih (List.Pairwise.of_cons h))
      intro z hz
      rcases (mem_insertKey ys).mp hz with rfl | hz
      · rcases strLe_total z y with h' | h'
        · exact absurd h' hxy
        · exact h'
      · exact List.rel_of_pairwise_cons h hz

theorem sortKeys_pairwise : ∀ l, List.Pairwise strLe (sortKeys l) := by
  intro l
  induction l with
  | nil => simp [sortKeys]
  | cons x xs ih => exact pairwise_insertKey ih

theorem mem_firstOccsAcc {z : String} :
    ∀ (l seen : List String), z ∈ firstOccsAcc seen l ↔ z ∈ l ∧ z ∉ seen := by
  intro l
  induction l with
  | nil => intro seen; simp [firstOccsAcc]
  | cons x xs ih =>
    intro seen
    simp only [firstOccsAcc]
    by_cases hx : x ∈ seen
    · rw [if_pos (by simpa using hx), ih]
      simp only [List.mem_cons]
      constructor
      · rintro ⟨h1, h2⟩; exact ⟨Or.inr h1, h2⟩
      · rintro ⟨rfl | h1, h2⟩
        · exact absurd hx h2
        · exact ⟨h1, h2⟩
    · rw [if_neg (by simpa using hx)]
      simp only [List.mem_cons, ih]
      constructor
      · rintro (rfl | ⟨h1, h2⟩)
        · exact ⟨Or.inl rfl, hx⟩
        · refine ⟨Or.inr h1, ?_⟩
          intro hz
          exact h2 (Or.inr hz)
      · rintro ⟨rfl | h1, h2⟩
        · exact Or.inl rfl
        · by_cases hzx : z = x
          · exact Or.inl hzx
          · refine Or.inr ⟨h1, ?_⟩
            rintro (h | h)
            · exact hzx h
            · exact h2 h

theorem nodup_firstOccsAcc : ∀ (l seen : List String), (firstOccsAcc seen l).Nodup := by
  intro l
  induction l with
  | nil => intro seen; simp [firstOccsAcc]
  | cons x xs ih =>
    intro seen
    simp only [firstOccsAcc]
    by_cases hx : x ∈ seen
    · rw [if_pos (by simpa using hx)]
      exact ih seen
    · rw [if_neg (by simpa using hx)]
      refine List.Nodup.cons ?_ (ih (x :: seen))
      intro hmem
      exact ((mem_firstOccsAcc xs (x :: seen)).mp hmem).2 (List.mem_cons_self x seen)

theorem mem_firstOccs {z : String} (l : List String) : z ∈ firstOccs l ↔ z ∈ l := by
  simp [firstOccs, mem_firstOccsAcc]

theorem nodup_firstOccs (l : List String) : (firstOccs l).Nodup := nodup_firstOccsAcc l []

theorem mem_sortedDedup {z : String} (l : List String) : z ∈ sortedDedup l ↔ z ∈ l := by
  rw [sortedDedup, (sortKeys_perm (firstOccs l)).mem_iff, mem_firstOccs]

theorem nodup_sortedDedup (l : List String) : (sortedDedup l).Nodup :=
  ((sortKeys_perm (firstOccs l)).nodup_iff).mpr (nodup_firstOccs l)

theorem pairwise_sortedDedup (l : List String) : List.Pairwise strLe (sortedDedup l) :=
  sortKeys_pairwise (firstOccs l)

/- ===================== Majority (Counter.most_common) lemmas ===================== -/

theorem bestOf_eq_none {l : List String} : ∀ ks, bestOf l ks = none ↔ ks = [] := by
  intro ks
  cases ks with
  | nil => simp [bestOf]
  | cons k ks =>
    simp only [bestOf]
    cases bestOf l ks with
    | none => simp
    | some b => by_cases h : l.count b > l.count k <;> simp [h]

theorem bestOf_mem {l : List String} : ∀ ks b, bestOf l ks = some b → b ∈ ks := by
  intro ks
  induction ks with
  | nil => intro b h; simp [bestOf] at h
  | cons k ks ih =>
    intro b h
    simp only [bestOf] at h
    cases hk : bestOf l ks with
    | none => rw [hk] at h; simp at h; simp [h]
    | some b' =>
      rw [hk] at h
      by_cases hc : l.count b' > l.count k
      · simp [hc] at h; subst h; exact List.mem_cons_of_mem _ (ih b' hk)
      · simp [hc] at h; simp [h]

theorem bestOf_count {l : List String} :
    ∀ ks b, bestOf l ks = some b → ∀ x ∈ ks, l.count x ≤ l.count b := by
  intro ks
  induction ks with
  | nil => intro b h; simp [bestOf] at h
  | cons k ks ih =>
    intro b h x hx
    simp only [bestOf] at h
    cases hk : bestOf l ks with
    | none =>
      rw [hk] at h
      simp at h
      subst h
      have : ks = [] := (bestOf_eq_none ks).mp hk
      subst this
      simp at hx
      subst hx
      exact le_refl _
    | some b' =>
      rw [hk] at h
      by_cases hc : l.count b' > l.count k
      · simp [hc] at h
        subst h
        rcases List.mem_cons.mp hx with rfl | hx
        · exact le_of_lt hc
        · exact ih b' hk x hx
      · simp [hc] at h
        subst h
        rcases List.mem_cons.mp hx with rfl | hx
        · exact le_refl _
        · exact le_trans (ih b' hk x hx) (by omega)

theorem mostCommon_spec {l : List String} {b : String} (h : mostCommon l = some b) :
    b ∈ l ∧ ∀ x ∈ l, l.count x ≤ l.count b := by
  constructor
  · exact (mem_firstOccs l).mp (bestOf_mem _ b h)
  · intro x hx
    exact bestOf_count _ b h x ((mem_firstOccs l).mpr hx)

theorem mostCommon_isSome {l : List String} (h : l ≠ []) : ∃ b, mostCommon l = some b := by
  have hne : firstOccs l ≠ [] := by
    cases l with
    | nil => exact absurd rfl h
    | cons x xs => simp [firstOccs, firstOccsAcc]
  cases hb : bestOf l (firstOccs l) with
  | none => exact absurd ((bestOf_eq_none _).mp hb) hne
  | some b => exact ⟨b, hb⟩

/- ===================== Aggregation-map lemmas ===================== -/

theorem lookup_map_upd_same (k : String) (f : EmpAgg → EmpAgg) :
    ∀ t : AggMap, List.lookup k (t.map (fun p => if p.1 == k then (p.1, f p.2) else p)) =
      (List.lookup k t).map f := by
  intro t
  induction t with
  | nil => simp
  | cons p t ih =>
    obtain ⟨p1, p2⟩ := p
    simp only [List.map_cons]
    by_cases hp : p1 = k
    · subst hp
      rw [if_pos (by simp : ((p1, p2).1 == p1) = true)]
      rw [List.lookup, List.lookup]
      rw [show (p1 == p1) = true by simp]
      rfl
    · rw [if_neg (by simpa using hp : ¬ ((p1, p2).1 == k) = true)]
      rw [List.lookup, List.lookup]
      rw [show (k == p1) = false by simpa using fun h => hp h.symm]
      exact ih

theorem lookup_map_upd_ne {k k' : String} (hk : k' ≠ k) (f : EmpAgg → EmpAgg) :
    ∀ t : AggMap, List.lookup k' (t.map (fun p => if p.1 == k then (p.1, f p.2) else p)) =
      List.lookup k' t := by
  intro t
  induction t with
  | nil => simp
  | cons p t ih =>
    obtain ⟨p1, p2⟩ := p
    by_cases hp : p1 = k
    · subst hp
      simp only [List.map_cons, beq_self_eq_true, if_true]
      rw [List.lookup, List.lookup]
      rw [show (k' == p1) = false by simpa using hk]
      exact ih
    · simp only [List.map_cons]
      rw [show ((p1, p2).1 == k) = false by simpa using hp]
      simp only [if_false, Bool.false_eq_true]
      rw [List.lookup, List.lookup]
      cases hkp : (k' == p1) with
      | true => rfl
      | false => exact ih

theorem lookup_append_assoc (k : String) :
    ∀ t s : AggMap, List.lookup k (t ++ s) =
      match List.lookup k t with
      | some v => some v
      | none => List.lookup k s := by
  intro t s
  induction t with
  | nil => simp
  | cons p t ih =>
    obtain ⟨p1, p2⟩ := p
    rw [List.cons_append, List.lookup, List.lookup]
    cases hkp : (k == p1) with
    | true => rfl
    | false => exact ih

theorem any_key_lookup_isSome {k : String} :
    ∀ t : AggMap, t.any (fun p => p.1 == k) = true → ∃ v, List.lookup k t = some v := by
  intro t
  induction t with
  | nil => simp
  | cons p t ih =>
    obtain ⟨p1, p2⟩ := p
    intro h
    rw [List.lookup]
    by_cases hp : p1 = k
    · subst hp
      rw [show (p1 == p1) = true by simp]
      exact ⟨p2, rfl⟩
    · rw [show (k == p1) = false by simpa using fun h' => hp h'.symm]
      apply ih
      simp only [List.any_cons] at h
      rcases Bool.or_eq_true_iff.mp h with h' | h'
      · exact absurd (by simpa using h') hp
      · exact h'

theorem any_key_false_lookup {k : String} :
    ∀ t : AggMap, t.any (fun p => p.1 == k) = false → List.lookup k t = none := by
  intro t
  induction t with
  | nil => simp
  | cons p t ih =>
    obtain ⟨p1, p2⟩ := p
    intro h
    simp only [List.any_cons, Bool.or_eq_false_iff] at h
    rw [List.lookup]
    rw [show (k == p1) = false by simpa using fun h' => (by simpa using h.1 : p1 ≠ k) h'.symm]
    exact ih h.2

/-- The defaultdict update law: updating key `k` changes exactly the entry
of `k`, read through `aggGet`. -/
theorem aggGet_aggUpd (d : AggMap) (k : String) (f : EmpAgg → EmpAgg) (k' : String) :
    aggGet (aggUpd d k f) k' = if k' = k then f (aggGet d k) else aggGet d k' := by
  by_cases hany : d.any (fun p => p.1 == k)
  · simp only [aggUpd, hany, if_true]
    by_cases hk : k' = k
    · subst hk
      obtain ⟨v, hv⟩ := any_key_lookup_isSome d hany
      rw [if_pos rfl]
      unfold aggGet
      rw [lookup_map_upd_same, hv]
      rfl
    · rw [if_neg hk]
      unfold aggGet
      rw [lookup_map_upd_ne hk]
  · simp only [aggUpd, hany, Bool.false_eq_true, if_false]
    by_cases hk : k' = k
    · subst hk
      have hnone := any_key_false_lookup d (Bool.eq_false_iff.mpr hany)
      rw [if_pos rfl]
      unfold aggGet
      rw [lookup_append_assoc, hnone]
      simp [List.lookup]
    · rw [if_neg hk]
      unfold aggGet
      rw [lookup_append_assoc]
      cases hl : List.lookup k' d with
      | some v => rfl
      | none =>
        rw [List.lookup]
        rw [show (k' == k) = false by simpa using hk]
        rfl

/- ===================== Per-employee invariants ===================== -/

theorem foldl_inv {α β : Type} (g : β → α → β) (P : β → Prop) :
    ∀ (l : List α) (b : β), P b → (∀ b' a, P b' → P (g b' a)) → P (l.foldl g b) := by
  intro l
  induction l with
  | nil => intro b hb _; exact hb
  | cons a l ih =>
    intro b hb hstep
    exact ih (g b a) (hstep b a hb) hstep

theorem perEmployee_inv (df : DataFrame) (cols : PeopleCols) (P : EmpAgg → Prop)
    (hdef : P EmpAgg.default)
    (hupd : ∀ row a, P a → P (stepUpdate df cols row a)) :
    ∀ k, P (aggGet (per_employee df cols) k) := by
  intro k
  unfold per_employee
  cases hnc : cols.name_col with
  | none => exact hdef
  | some nc =>
    by_cases hg : nc = "" || df.isEmpty
    · simp only [hg, if_true]
      exact hdef
    · simp only [hg, Bool.false_eq_true, if_false]
      refine foldl_inv _ (fun d => ∀ k', P (aggGet d k')) df.rows [] (fun _ => hdef) ?_ k
      intro d row hall k'
      unfold perEmployeeStep
      cases hkey : build_employee_key (cellAt df row nc) with
      | none => exact hall k'
      | some name =>
        rw [aggGet_aggUpd]
        by_cases hk : k' = name
        · simp only [hk, if_true]
          exact hupd row (aggGet d name) (hall name)
        · simp only [hk, if_false]
          exact hall k'

theorem per_employee_team_leads_nil (df : DataFrame) (cols : PeopleCols)
    (h : cols.tl_col = none) :
    ∀ k, (aggGet (per_employee df cols) k).team_leads = [] :=
  perEmployee_inv df cols (fun a => a.team_leads = []) rfl
    (fun row a ha => by simp [stepUpdate, h, optColGet, appendIfTruthy, appendIfSome, ha])

theorem per_employee_assessors_nil (df : DataFrame) (cols : PeopleCols)
    (h : cols.qa_col = none) :
    ∀ k, (aggGet (per_employee df cols) k).assessors = [] :=
  perEmployee_inv df cols (fun a => a.assessors = []) rfl
    (fun row a ha => by simp [stepUpdate, h, optColGet, appendIfTruthy, appendIfSome, ha])

theorem per_employee_comments_nil (df : DataFrame) (cols : PeopleCols)
    (h : cols.comments_col = none) :
    ∀ k, (aggGet (per_employee df cols) k).comments = [] :=
  perEmployee_inv df cols (fun a => a.comments = []) rfl
    (fun row a ha => by simp [stepUpdate, h, optColGet, appendIfTruthy, appendIfSome, ha])

theorem per_employee_sn_ratings_nil (df : DataFrame) (cols : PeopleCols)
    (h : cols.sn_rating_col = none) :
    ∀ k, (aggGet (per_employee df cols) k).sn_ratings = [] :=
  perEmployee_inv df cols (fun a => a.sn_ratings = []) rfl
    (fun row a ha => by simp [stepUpdate, h, optColGet, appendIfTruthy, appendIfSome, ha])

theorem per_employee_manual_grades_nil (df : DataFrame) (cols : PeopleCols)
    (h : cols.manual_grade_col = none) :
    ∀ k, (aggGet (per_employee df cols) k).manual_grades = [] :=
  perEmployee_inv df cols (fun a => a.manual_grades = []) rfl
    (fun row a ha => by simp [stepUpdate, h, optColGet, appendIfTruthy, appendIfSome, ha])

/- ===================== Record-construction lemmas ===================== -/

theorem mkTrackerRec_name (env : GroqEnv) (fuel : Nat) (am asn : AggMap)
    (m w : Nat) (seed : List String) (gst : GroqState) (name : String) :
    ((mkTrackerRec env fuel am asn m w seed gst name).1).employeeName = name := rfl

theorem buildRecords_names (env : GroqEnv) (fuel : Nat) (am asn : AggMap)
    (m w : Nat) (seed : List String) :
    ∀ (names : List String) (gst : GroqState),
      ((buildRecords env fuel am asn m w seed gst names).1).map (·.employeeName) = names := by
  intro names
  induction names with
  | nil => intro gst; rfl
  | cons n ns ih =>
    intro gst
    simp only [buildRecords, List.map_cons, mkTrackerRec_name, ih]

theorem buildRecords_mem (env : GroqEnv) (fuel : Nat) (am asn : AggMap)
    (m w : Nat) (seed : List String) :
    ∀ (names : List String) (gst : GroqState) (rec : TrackerRec),
      rec ∈ (buildRecords env fuel am asn m w seed gst names).1 →
      ∃ name g, name ∈ names ∧ rec = (mkTrackerRec env fuel am asn m w seed g name).1 := by
  intro names
  induction names with
  | nil => intro gst rec h; simp [buildRecords] at h
  | cons n ns ih =>
    intro gst rec h
    simp only [buildRecords, List.mem_cons] at h
    rcases h with rfl | h
    · exact ⟨n, gst, List.mem_cons_self n ns, rfl⟩
    · obtain ⟨name, g, hmem, hrec⟩ :=
        ih (mkTrackerRec env fuel am asn m w seed gst n).2 rec h
      exact ⟨name, g, List.mem_cons_of_mem _ hmem, hrec⟩

/- ===================== Mask and filtering lemmas ===================== -/

theorem maskFilter_map_pred (g : List Cell → Bool) :
    ∀ l : List (List Cell),
      ((l.zip (l.map g)).filter (fun p => p.2)).map (fun p => p.1) = l.filter g := by
  intro l
  induction l with
  | nil => rfl
  | cons a l ih =>
    simp only [List.map_cons, List.zip_cons_cons, List.filter_cons]
    by_cases hg : g a
    · simp only [hg, if_true]
      simp only [List.filter_cons, hg, if_true] at *
      simp [ih]
    · simp only [hg, Bool.false_eq_true, if_false]
      simpa [hg] using ih

theorem zipReplicate_all (l : List (List Cell)) :
    ((l.zip (List.replicate l.length true)).filter (fun p => p.2)).map (fun p => p.1) = l := by
  induction l with
  | nil => rfl
  | cons a l ih =>
    simp only [List.length_cons, List.replicate_succ, List.zip_cons_cons, List.filter_cons]
    simp [ih]

theorem applyMask_all_true (df : DataFrame) :
    applyMask df (List.replicate df.rows.length true) = df := by
  obtain ⟨cols, rows⟩ := df
  unfold applyMask
  by_cases h : rows.length = 0
  · simp [h]
  · simp only [h, if_false]
    simpa using zipReplicate_all rows

theorem mem_of_mem_applyMask {df : DataFrame} {mask : List Bool} {r : List Cell}
    (h : r ∈ (applyMask df mask).rows) : r ∈ df.rows := by
  unfold applyMask at h
  by_cases hl : df.rows.length = 0
  · simpa [hl] using h
  · simp only [hl, if_false] at h
    simp only [List.mem_map, List.mem_filter] at h
    obtain ⟨p, ⟨hp, _⟩, rfl⟩ := h
    exact (List.of_mem_zip hp).1

theorem mem_applyMask_mapped {df : DataFrame} {g : List Cell → Bool} {r : List Cell}
    (h : r ∈ (applyMask df (df.rows.map g)).rows) : r ∈ df.rows ∧ g r = true := by
  unfold applyMask at h
  by_cases hl : df.rows.length = 0
  · rw [if_pos hl] at h
    have : df.rows = [] := List.length_eq_zero.mp hl
    rw [this] at h
    simp at h
  · rw [if_neg hl] at h
    simp only [maskFilter_map_pred] at h
    exact ⟨List.mem_of_mem_filter h, List.of_mem_filter h⟩

theorem colValues_eq {df : DataFrame} {c : String} {i : Nat} (h : df.colIdx c = some i) :
    df.colValues c = df.rows.map (fun r => r.getD i Cell.nan) := by
  unfold DataFrame.colValues
  rw [h]

theorem contains_of_colIdx {df : DataFrame} {c : String} {i : Nat}
    (h : df.colIdx c = some i) : df.cols.contains c = true := by
  unfold DataFrame.colIdx at h
  by_contra hc
  have hnone : df.cols.findIdx? (· == c) = none := by
    rw [List.findIdx?_eq_none_iff]
    intro x hx
    by_contra hbx
    have hxc : x = c := by simpa using hbx
    subst hxc
    exact hc (by simpa using hx)
  rw [hnone] at h
  exact Option.noConfusion h

/- ===================== average_of_grades lemmas ===================== -/

theorem filterMap_id_ne_nil {l : List (Option Q)} (h : l.any Option.isSome = true) :
    l.filterMap id ≠ [] := by
  obtain ⟨o, ho, hs⟩ := List.any_eq_true.mp h
  obtain ⟨q, rfl⟩ := Option.isSome_iff_exists.mp hs
  intro hnil
  have hq : q ∈ l.filterMap id := List.mem_filterMap.mpr ⟨some q, ho, rfl⟩
  rw [hnil] at hq
  simp at hq

theorem average_of_grades_numeric {series : List Cell}
    (h : (series.map toNumericCell).any Option.isSome = true) :
    average_of_grades series =
      some (round2 (meanQ ((series.map toNumericCell).filterMap id))) := by
  have hne := filterMap_id_ne_nil h
  simp only [average_of_grades]
  rw [if_pos h, if_neg (by simpa using hne)]

theorem average_of_grades_letters {series : List Cell}
    (h : (series.map toNumericCell).any Option.isSome = false)
    (hl : (series.map letter_grade_to_score).filterMap id ≠ []) :
    average_of_grades series =
      some (round2 (meanQ ((series.map letter_grade_to_score).filterMap id))) := by
  simp only [average_of_grades]
  rw [if_neg (by simp [h]), if_neg (by simpa using hl)]

theorem average_of_grades_unusable {series : List Cell}
    (h : (series.map toNumericCell).any Option.isSome = false)
    (hl : (series.map letter_grade_to_score).filterMap id = []) :
    average_of_grades series = none := by
  simp only [average_of_grades]
  rw [if_neg (by simp [h]), if_pos (by simpa using hl)]

/- ===================== findSome?/find? helpers ===================== -/

theorem mem_of_findSome?_find? {cols : List String} {q : String → String → Bool} {c : String} :
    ∀ cands : List String,
      cands.findSome? (fun cand => cols.find? (fun col => q col cand)) = some c → c ∈ cols := by
  intro cands
  induction cands with
  | nil => intro h; simp at h
  | cons x xs ih =>
    intro h
    rw [List.findSome?] at h
    cases hfx : cols.find? (fun col => q col x) with
    | some b =>
      rw [hfx] at h
      cases h
      exact List.mem_of_find?_eq_some hfx
    | none =>
      rw [hfx] at h
      exact ih h

theorem findSome?_skip_none {f : String → Option String} :
    ∀ (pre : List String) (x : String) (post : List String) (b : String),
      (∀ c' ∈ pre, f c' = none) → f x = some b → (pre ++ x :: post).findSome? f = some b := by
  intro pre
  induction pre with
  | nil =>
    intro x post b _ hx
    rw [List.nil_append, List.findSome?, hx]
  | cons p pre ih =>
    intro x post b hpre hx
    rw [List.cons_append, List.findSome?, hpre p (List.mem_cons_self p pre)]
    exact ih x post b (fun c' hc' => hpre c' (List.mem_cons_of_mem _ hc')) hx

theorem findSome?_all_none {f : String → Option String} :
    ∀ l : List String, (∀ c ∈ l, f c = none) → l.findSome? f = none := by
  intro l
  induction l with
  | nil => intro _; rfl
  | cons x xs ih =>
    intro h
    rw [List.findSome?, h x (List.mem_cons_self x xs)]
    exact ih (fun c hc => h c (List.mem_cons_of_mem _ hc))

/- ===================== Claim C7 ===================== -/

/-- C7: `pick_first_available_column` returns None on a None/empty frame;
otherwise it resolves the first candidate (in candidate-list order) that
matches an existing column case-insensitively after trimming, returning
that column; only when no candidate matches that way does it fall back to
comparison with all non-letter characters removed; and any returned value
is an actual column of the frame. -/
theorem pick_first_available_column_resolution :
    (∀ (df : DataFrame) (cands : List String), df.isEmpty = true →
       pick_first_available_column df cands = none) ∧
    (∀ (df : DataFrame) (cands : List String) (c : String),
       pick_first_available_column df cands = some c → c ∈ df.cols) ∧
    (∀ (df : DataFrame) (pre : List String) (cand : String) (post : List String) (col0 : String),
       df.isEmpty = false →
       (∀ c' ∈ pre, df.cols.find? (fun col => lowKey col == lowKey c') = none) →
       df.cols.find? (fun col => lowKey col == lowKey cand) = some col0 →
       pick_first_available_column df (pre ++ cand :: post) = some col0) ∧
    (∀ (df : DataFrame) (cands : List String),
       df.isEmpty = false →
       (∀ c' ∈ cands, df.cols.find? (fun col => lowKey col == lowKey c') = none) →
       pick_first_available_column df cands =
         cands.findSome? (fun cand => df.cols.find? (fun col => simpleKey col == simpleKey cand))) := by
  refine ⟨?_, ?_, ?_, ?_⟩
  · intro df cands h
    simp [pick_first_available_column, h]
  · intro df cands c h
    unfold pick_first_available_column at h
    by_cases he : df.isEmpty
    · rw [if_pos he] at h
      exact Option.noConfusion h
    · rw [if_neg he] at h
      cases h1 : cands.findSome? (fun cand => df.cols.find? (fun col => lowKey col == lowKey cand)) with
      | some c' =>
        rw [h1] at h
        cases h
        exact mem_of_findSome?_find? cands h1
      | none =>
        rw [h1] at h
        exact mem_of_findSome?_find? cands h
  · intro df pre cand post col0 hne hpre hc
    unfold pick_first_available_column
    rw [if_neg (by simp [hne])]
    rw [findSome?_skip_none pre cand post col0 hpre hc]
  · intro df cands hne hall
    unfold pick_first_available_column
    rw [if_neg (by simp [hne]), findSome?_all_none cands hall]

/-- C7 witness: concrete instances of all four conjuncts. -/
theorem pick_first_available_column_resolution_witness :
    pick_first_available_column ⟨["a"], []⟩ ["a"] = none ∧
    ("TEAM LEAD " ∈ (⟨["TEAM LEAD ", "x"], [[Cell.nan, Cell.nan]]⟩ : DataFrame).cols) ∧
    pick_first_available_column ⟨["TEAM LEAD ", "x"], [[Cell.nan, Cell.nan]]⟩ CAND_TEAM_LEAD =
      some "TEAM LEAD " ∧
    pick_first_available_column ⟨["T.L.", "x"], [[Cell.nan, Cell.nan]]⟩ ["Team Lead", "TL"] =
      some "T.L." :=
  ⟨pick_first_available_column_resolution.1 ⟨["a"], []⟩ ["a"] (by decide),
   pick_first_available_column_resolution.2.1 ⟨["TEAM LEAD ", "x"], [[Cell.nan, Cell.nan]]⟩
     CAND_TEAM_LEAD "TEAM LEAD " (by decide),
   pick_first_available_column_resolution.2.2.1 ⟨["TEAM LEAD ", "x"], [[Cell.nan, Cell.nan]]⟩
     [] "Team Lead" ["Team Leader", "TL", "Manager", "Reporting Manager"] "TEAM LEAD "
     (by decide) (by intro c' hc'; simp at hc') (by decide),
   pick_first_available_column_resolution.2.2.2 ⟨["T.L.", "x"], [[Cell.nan, Cell.nan]]⟩
     ["Team Lead", "TL"] (by decide) (by decide)⟩

/- ===================== Claim C10 ===================== -/

/-- C10: in `average_of_grades`, when any entry parses as a number the
average uses exactly the numeric entries (letter grades in the same series
are ignored); letter grades contribute only when no entry is numeric; and
a series with no usable values yields None. -/
theorem average_of_grades_numeric_precedence (series : List Cell) :
    ((series.map toNumericCell).any Option.isSome = true →
       average_of_grades series =
         some (round2 (meanQ ((series.map toNumericCell).filterMap id)))) ∧
    ((series.map toNumericCell).any Option.isSome = false →
       (series.map letter_grade_to_score).filterMap id ≠ [] →
       average_of_grades series =
         some (round2 (meanQ ((series.map letter_grade_to_score).filterMap id)))) ∧
    ((series.map toNumericCell).any Option.isSome = false →
       (series.map letter_grade_to_score).filterMap id = [] →
       average_of_grades series = none) :=
  ⟨fun h => average_of_grades_numeric h,
   fun h hl => average_of_grades_letters h hl,
   fun h hl => average_of_grades_unusable h hl⟩

/-- C10 witness: a series with a numeric "4" and a letter "A" averages the
numeric entries only. -/
theorem average_of_grades_numeric_precedence_witness :
    average_of_grades [Cell.str "4", Cell.str "A"] =
      some (round2 (meanQ (([Cell.str "4", Cell.str "A"].map toNumericCell).filterMap id))) :=
  (average_of_grades_numeric_precedence [Cell.str "4", Cell.str "A"]).1 (by decide)

/- ===================== Claim C2 ===================== -/

/-- C2: the employee identity key is case- and whitespace-normalized, so
any two name values that differ only by letter case or surrounding
whitespace produce the same key and therefore aggregate under the same
employee entry.  (`build_employee_key` itself is modelled from the spec,
as its definition is absent from the sources.) -/
theorem build_employee_key_normalizes (s t : String)
    (h : strLower (strTrim s) = strLower (strTrim t)) :
    build_employee_key (some (Cell.str s)) = build_employee_key (some (Cell.str t)) := by
  simp only [build_employee_key, strOfCell]
  rw [h]

/-- C2 witness: "  ALICE " and "alice" get the same key. -/
theorem build_employee_key_normalizes_witness :
    build_employee_key (some (Cell.str "  ALICE ")) = build_employee_key (some (Cell.str "alice")) :=
  build_employee_key_normalizes "  ALICE " "alice" (by decide)

/- ===================== Claim C4 ===================== -/

/-- C4: whenever the text-completion call fails (for any exception), both
`groq_chat_completion` and `synthesize_areas_to_improve` return the empty
string to their caller; the exception never escapes (the embedded return
type is a total `String`). -/
theorem llm_failure_degrades_to_empty (env : GroqEnv) (fuel : Nat) (gst : GroqState)
    (prompt : String) (comments : List String) (name : String) (seed : List String)
    (hfail : ∀ k p s, env.complete k p ≠ Except.ok s) :
    (groq_chat_completion env fuel gst prompt).1 = "" ∧
    (synthesize_areas_to_improve env fuel gst comments name seed).1 = "" := by
  have hmain : ∀ (p : String) (gst' : GroqState), (groq_chat_completion env fuel gst' p).1 = "" := by
    intro p gst'
    unfold groq_chat_completion
    cases hget : get_next_groq_client env fuel gst' with
    | mk oidx st' =>
      cases oidx with
      | none => rfl
      | some idx =>
        cases hc : env.complete ((get_api_keys_from_env env).getD idx "") p with
        | ok s => exact absurd hc (hfail _ _ s)
        | error m =>
          simp only [hc]
          by_cases hrl : is_rate_limit_error m
          · rw [if_pos hrl]
          · rw [if_neg hrl]
  refine ⟨hmain prompt gst, ?_⟩
  unfold synthesize_areas_to_improve
  by_cases hbits : (((comments.filter (fun c => normStr c ≠ "")).map
      (fun c => strTrim (clean_comment c))).isEmpty)
  · rw [if_pos hbits]
  · rw [if_neg hbits]
    exact hmain _ gst

/-- C4 witness: a completion oracle that always raises still yields "". -/
theorem llm_failure_degrades_to_empty_witness :
    (groq_chat_completion ⟨["k1"], fun _ => Except.ok (), fun _ _ => Except.error "boom"⟩
        1 ⟨0, []⟩ "p").1 = "" ∧
    (synthesize_areas_to_improve ⟨["k1"], fun _ => Except.ok (), fun _ _ => Except.error "boom"⟩
        1 ⟨0, []⟩ ["agent missed a step"] "al" []).1 = "" :=
  llm_failure_degrades_to_empty _ 1 ⟨0, []⟩ "p" ["agent missed a step"] "al" []
    (fun _ _ _ h => Except.noConfusion h)

/- ===================== Claim C5 ===================== -/

/-- Spec-side description of linear rotation: the first index of the scan
sequence `(cur+1)%n, (cur+2)%n, …, (cur+n-1)%n` that is not marked
rate-limited. -/
def firstUnlimited (st : GroqState) (cur n : Nat) : Option Nat :=
  (List.range' 1 (n - 1)).findSome? (fun i =>
    if isLimited st ((cur + i) % n) then none else some ((cur + i) % n))

theorem api_keys_ne_empty {env : GroqEnv} : ∀ k ∈ get_api_keys_from_env env, k ≠ "" := by
  intro k hk
  unfold get_api_keys_from_env at hk
  have hk' := (mem_firstOccsAcc _ _).mp hk
  have := List.mem_filter.mp hk'.1
  simpa using this.2

theorem getD_mem_of_lt : ∀ (l : List String) (i : Nat), i < l.length → l.getD i "" ∈ l := by
  intro l
  induction l with
  | nil => intro i h; simp at h
  | cons x xs ih =>
    intro i h
    cases i with
    | zero => exact List.mem_cons_self x xs
    | succ j =>
      have : xs.getD j "" ∈ xs := ih j (by simpa using Nat.lt_of_succ_lt_succ h)
      simpa [List.getD] using List.mem_cons_of_mem x this

theorem tryOtherKeys_spec (env : GroqEnv) (keys : List String) (cur n : Nat) :
    ∀ (is : List Nat) (st : GroqState),
      (∀ i ∈ is, env.testKey (keys.getD ((cur + i) % n) "") = Except.ok ()) →
      (∀ i ∈ is, keys.getD ((cur + i) % n) "" ≠ "") →
      tryOtherKeys env keys cur n is st =
        match is.findSome? (fun i =>
            if isLimited st ((cur + i) % n) then none else some ((cur + i) % n)) with
        | some idx => (some idx, setIndex st idx)
        | none => (none, st) := by
  intro is
  induction is with
  | nil => intro st _ _; rfl
  | cons i is ih =>
    intro st htest hkeys
    rw [List.findSome?]
    unfold tryOtherKeys
    by_cases hl : isLimited st ((cur + i) % n)
    · rw [if_neg (by simp [hl])]
      rw [show (if isLimited st ((cur + i) % n) then none
            else some ((cur + i) % n)) = (none : Option Nat) by rw [if_pos hl]]
      exact ih st (fun j hj => htest j (List.mem_cons_of_mem _ hj))
        (fun j hj => hkeys j (List.mem_cons_of_mem _ hj))
    · rw [if_pos (by
        rw [Bool.and_eq_true]
        exact ⟨decide_eq_true (hkeys i (List.mem_cons_self i is)),
          by rw [Bool.not_eq_true']; exact Bool.eq_false_iff.mpr hl⟩)]
      rw [htest i (List.mem_cons_self i is)]
      rw [show (if isLimited st ((cur + i) % n) then none
            else some ((cur + i) % n)) = some ((cur + i) % n) by rw [if_neg hl]]

/-- C5: whenever the completion request or the current key's test fails
with a rate-limit message, the error is absorbed (the completion returns
"" to the caller), the current API key is marked rate-limited in the
session state, and the next client acquisition rotates linearly (wrapping
modulo the key count) to the first non-limited key after the current one. -/
theorem rate_limit_marks_and_rotates :
    (∀ (env : GroqEnv) (fuel : Nat) (gst : GroqState) (prompt msg : String) (r : Nat),
       gst.keyIndex < (get_api_keys_from_env env).length →
       isLimited gst gst.keyIndex = false →
       (∀ k, env.testKey k = Except.ok ()) →
       env.complete ((get_api_keys_from_env env).getD gst.keyIndex "") prompt =
         Except.error msg →
       is_rate_limit_error msg = true →
       firstUnlimited (markLimited gst gst.keyIndex) gst.keyIndex
         (get_api_keys_from_env env).length = some r →
       groq_chat_completion env (fuel + 1) gst prompt = ("", markLimited gst gst.keyIndex) ∧
       isLimited (markLimited gst gst.keyIndex) gst.keyIndex = true ∧
       (get_next_groq_client env (fuel + 1) (markLimited gst gst.keyIndex)).1 = some r) ∧
    (∀ (env : GroqEnv) (fuel : Nat) (gst : GroqState) (msg : String) (r : Nat),
       gst.keyIndex < (get_api_keys_from_env env).length →
       isLimited gst gst.keyIndex = false →
       env.testKey ((get_api_keys_from_env env).getD gst.keyIndex "") = Except.error msg →
       is_rate_limit_error msg = true →
       (∀ i ∈ List.range' 1 ((get_api_keys_from_env env).length - 1),
          env.testKey ((get_api_keys_from_env env).getD
            ((gst.keyIndex + i) % (get_api_keys_from_env env).length) "") = Except.ok ()) →
       firstUnlimited (markLimited gst gst.keyIndex) gst.keyIndex
         (get_api_keys_from_env env).length = some r →
       get_next_groq_client env (fuel + 1) gst =
         (some r, setIndex (markLimited gst gst.keyIndex) r) ∧
       isLimited (setIndex (markLimited gst gst.keyIndex) r) gst.keyIndex = true) := by
  constructor
  · intro env fuel gst prompt msg r hcur hnotlim htest hfail hrl hrot
    have hne : (get_api_keys_from_env env).getD gst.keyIndex "" ≠ "" :=
      api_keys_ne_empty _ (getD_mem_of_lt _ _ hcur)
    have hn0 : ¬ (get_api_keys_from_env env).length = 0 := by omega
    have hget : get_next_groq_client env (fuel + 1) gst = (some gst.keyIndex, gst) := by
      unfold get_next_groq_client
      rw [if_neg hn0, if_pos hcur, if_pos (by
        rw [Bool.and_eq_true]
        exact ⟨decide_eq_true hne, by rw [Bool.not_eq_true']; exact hnotlim⟩)]
      rw [htest ((get_api_keys_from_env env).getD gst.keyIndex "")]
    have hcall : groq_chat_completion env (fuel + 1) gst prompt =
        ("", markLimited gst gst.keyIndex) := by
      unfold groq_chat_completion
      rw [hget]
      simp only [hfail]
      rw [if_pos hrl]
    refine ⟨hcall, by simp [isLimited, markLimited], ?_⟩
    have hkeys : ∀ i ∈ List.range' 1 ((get_api_keys_from_env env).length - 1),
        (get_api_keys_from_env env).getD
          ((gst.keyIndex + i) % (get_api_keys_from_env env).length) "" ≠ "" := by
      intro i _
      exact api_keys_ne_empty _ (getD_mem_of_lt _ _ (Nat.mod_lt _ (by omega)))
    have hidx : (markLimited gst gst.keyIndex).keyIndex = gst.keyIndex := rfl
    have hlim : isLimited (markLimited gst gst.keyIndex) gst.keyIndex = true := by
      simp [isLimited, markLimited]
    unfold get_next_groq_client
    rw [if_neg hn0, hidx, if_pos hcur, if_neg (by simp [hlim])]
    simp only [tryOtherKeys_spec env (get_api_keys_from_env env) gst.keyIndex
      (get_api_keys_from_env env).length
      (List.range' 1 ((get_api_keys_from_env env).length - 1))
      (markLimited gst gst.keyIndex) (fun i _ => htest _) hkeys]
    unfold firstUnlimited at hrot
    simp only [hrot]
  · intro env fuel gst msg r hcur hnotlim htfail hrl hothers hrot
    have hne : (get_api_keys_from_env env).getD gst.keyIndex "" ≠ "" :=
      api_keys_ne_empty _ (getD_mem_of_lt _ _ hcur)
    have hn0 : ¬ (get_api_keys_from_env env).length = 0 := by omega
    have hkeys : ∀ i ∈ List.range' 1 ((get_api_keys_from_env env).length - 1),
        (get_api_keys_from_env env).getD
          ((gst.keyIndex + i) % (get_api_keys_from_env env).length) "" ≠ "" := by
      intro i _
      exact api_keys_ne_empty _ (getD_mem_of_lt _ _ (Nat.mod_lt _ (by omega)))
    constructor
    · unfold get_next_groq_client
      rw [if_neg hn0, if_pos hcur, if_pos (by
        rw [Bool.and_eq_true]
        exact ⟨decide_eq_true hne, by rw [Bool.not_eq_true']; exact hnotlim⟩)]
      simp only [htfail]
      rw [if_pos hrl]
      simp only [tryOtherKeys_spec env (get_api_keys_from_env env) gst.keyIndex
        (get_api_keys_from_env env).length
        (List.range' 1 ((get_api_keys_from_env env).length - 1))
        (markLimited gst gst.keyIndex) hothers hkeys]
      unfold firstUnlimited at hrot
      simp only [hrot]
    · simp [isLimited, setIndex, markLimited]

/-- C5 witness: with keys ["k1", "k2"] and current index 0, a 429
completion failure marks key 0 and the next acquisition returns key 1; a
429 test failure of key 0 rotates to key 1 within the same acquisition,
with key 0 marked. -/
theorem rate_limit_marks_and_rotates_witness :
    (groq_chat_completion ⟨["k1", "k2"], fun _ => Except.ok (), fun _ _ => Except.error "429"⟩
        1 ⟨0, []⟩ "p" = ("", markLimited ⟨0, []⟩ 0) ∧
     isLimited (markLimited ⟨0, []⟩ 0) 0 = true ∧
     (get_next_groq_client ⟨["k1", "k2"], fun _ => Except.ok (), fun _ _ => Except.error "429"⟩
        1 (markLimited ⟨0, []⟩ 0)).1 = some 1) ∧
    (get_next_groq_client
        ⟨["k1", "k2"], fun k => if k = "k1" then Except.error "429" else Except.ok (),
         fun _ _ => Except.error "boom"⟩ 1 ⟨0, []⟩ =
      (some 1, setIndex (markLimited ⟨0, []⟩ 0) 1) ∧
     isLimited (setIndex (markLimited ⟨0, []⟩ 0) 1) 0 = true) :=
  ⟨rate_limit_marks_and_rotates.1 _ 0 ⟨0, []⟩ "p" "429" 1
     (by decide) (by decide) (fun _ => rfl) rfl (by decide) (by decide),
   rate_limit_marks_and_rotates.2
     ⟨["k1", "k2"], fun k => if k = "k1" then Except.error "429" else Except.ok (),
      fun _ _ => Except.error "boom"⟩ 0 ⟨0, []⟩ "429" 1
     (by decide) (by decide) rfl (by decide)
     (by
       intro i hi
       rw [show List.range' 1
           ((get_api_keys_from_env ⟨["k1", "k2"],
             fun k => if k = "k1" then Except.error "429" else Except.ok (),
             fun _ _ => Except.error "boom"⟩).length - 1) = [1] by decide] at hi
       have hi1 : i = 1 := List.mem_singleton.mp hi
       subst hi1
       rfl)
     (by decide)⟩
/- ===================== Claim C9 ===================== -/

/-- C9 counterexample: a frame with one row and no columns is "empty" for
pandas, so `get_week_filter_mask` returns a length-0 mask rather than an
all-True mask of the table's length (1). -/
theorem week_mask_degenerate_counterexample :
    get_week_filter_mask ⟨[], [[]]⟩ none none 1 1 ≠
      List.replicate (DataFrame.mk [] [[]]).rows.length true := by decide

/-- C9 (amended): when neither a week column nor a date column is resolved
and the table has at least one column or no rows, the mask is all-True of
the table's length, so boolean selection keeps the entire table. -/
theorem week_mask_all_true_when_unresolved (df : DataFrame) (m w : Nat)
    (hcols : df.cols ≠ [] ∨ df.rows = []) :
    get_week_filter_mask df none none m w = List.replicate df.rows.length true ∧
    applyMask df (get_week_filter_mask df none none m w) = df := by
  have hmask : get_week_filter_mask df none none m w = List.replicate df.rows.length true := by
    unfold get_week_filter_mask
    by_cases he : df.isEmpty
    · rw [if_pos he]
      have hrows : df.rows = [] := by
        unfold DataFrame.isEmpty at he
        rcases hcols with h | h
        · rcases Bool.or_eq_true_iff.mp he with h' | h'
          · exact List.isEmpty_iff.mp h'
          · exact absurd (List.isEmpty_iff.mp h') h
        · exact h
      rw [hrows]
      rfl
    · rw [if_neg he]
      simp [colActive]
  exact ⟨hmask, by rw [hmask]; exact applyMask_all_true df⟩

/-- C9 witness: a one-row table with a (non-matching) column keeps its row. -/
theorem week_mask_all_true_when_unresolved_witness :
    get_week_filter_mask ⟨["A"], [[Cell.nan]]⟩ none none 1 1 =
      List.replicate (DataFrame.mk ["A"] [[Cell.nan]]).rows.length true ∧
    applyMask ⟨["A"], [[Cell.nan]]⟩ (get_week_filter_mask ⟨["A"], [[Cell.nan]]⟩ none none 1 1) =
      ⟨["A"], [[Cell.nan]]⟩ :=
  week_mask_all_true_when_unresolved ⟨["A"], [[Cell.nan]]⟩ 1 1 (Or.inl (by decide))

/- ===================== Shared concrete examples ===================== -/

/-- An oracle whose completions always raise (no LLM needed by witnesses). -/
def groqEnvFail : GroqEnv := ⟨["k1"], fun _ => Except.ok (), fun _ _ => Except.error "boom"⟩

def gstInit : GroqState := ⟨0, []⟩

def manualEx : DataFrame :=
  ⟨["Name", "Grade", "Team Lead"],
   [[Cell.str "Alice", Cell.str "A", Cell.str "Zoe"],
    [Cell.str " alice ", Cell.str "4", Cell.str "Zoe"]]⟩

def snEx : DataFrame :=
  ⟨["Name", "Rating", "Assessor", "Week"],
   [[Cell.str "ALICE", Cell.num ⟨9, 2⟩, Cell.str "Bob", Cell.str "1"],
    [Cell.str "Alice", Cell.num ⟨4, 1⟩, Cell.str "Ann", Cell.str "2"]]⟩

/-- A table filtered through the date branch: no week column resolves, the
date column holds ISO date strings. -/
def snDateEx : DataFrame :=
  ⟨["Name", "Rating", "Date"],
   [[Cell.str "Bob", Cell.num ⟨4, 1⟩, Cell.str "2024-01-10"],
    [Cell.str "Bob", Cell.num ⟨5, 1⟩, Cell.str "2024-02-10"]]⟩

/- ===================== Per-employee views used by the claims ===================== -/

/-- The normalized nonempty team-lead values collected for an employee
from both (filtered) tables. -/
def teamLeadsOf (mdf sdf : DataFrame) (m w : Nat) (name : String) : List String :=
  normNonempty ((aggGet (aggOfTable mdf m w) name).team_leads ++
    (aggGet (aggOfTable sdf m w) name).team_leads)

/-- The normalized nonempty assessor values collected for an employee from
both (filtered) tables. -/
def assessorsOf (mdf sdf : DataFrame) (m w : Nat) (name : String) : List String :=
  normNonempty ((aggGet (aggOfTable mdf m w) name).assessors ++
    (aggGet (aggOfTable sdf m w) name).assessors)

/-- The numeric coercions of an employee's Service Now rating cells. -/
def snNumericOf (sdf : DataFrame) (m w : Nat) (name : String) : List Q :=
  ((aggGet (aggOfTable sdf m w) name).sn_ratings.map toNumericCell).filterMap id

/-- An employee's collected manual grade cells. -/
def manualGradesOf (mdf : DataFrame) (m w : Nat) (name : String) : List Cell :=
  (aggGet (aggOfTable mdf m w) name).manual_grades

theorem mkTrackerRec_teamLead (env : GroqEnv) (fuel : Nat) (am asn : AggMap)
    (m w : Nat) (seed : List String) (g : GroqState) (name : String) :
    ((mkTrackerRec env fuel am asn m w seed g name).1).teamLead =
      (mostCommon (normNonempty ((aggGet am name).team_leads ++
        (aggGet asn name).team_leads))).getD "" := rfl

theorem mkTrackerRec_qa (env : GroqEnv) (fuel : Nat) (am asn : AggMap)
    (m w : Nat) (seed : List String) (g : GroqState) (name : String) :
    ((mkTrackerRec env fuel am asn m w seed g name).1).qualityAssessors =
      joinSep ", " (sortedDedup (normNonempty ((aggGet am name).assessors ++
        (aggGet asn name).assessors))) := rfl

theorem mkTrackerRec_snAvg (env : GroqEnv) (fuel : Nat) (am asn : AggMap)
    (m w : Nat) (seed : List String) (g : GroqState) (name : String) :
    ((mkTrackerRec env fuel am asn m w seed g name).1).snAvg =
      (if ((aggGet asn name).sn_ratings.map toNumericCell).filterMap id = [] then OutVal.s ""
       else OutVal.n (round2 (meanQ (((aggGet asn name).sn_ratings.map toNumericCell).filterMap id)))) := by
  by_cases h : ((aggGet asn name).sn_ratings.map toNumericCell).filterMap id = []
  · rw [if_pos h]
    show (match (if _ then _ else _ : Option Q) with
      | some q => OutVal.n q | none => OutVal.s "") = OutVal.s ""
    rw [if_pos (by simpa using h)]
  · rw [if_neg h]
    show (match (if _ then _ else _ : Option Q) with
      | some q => OutVal.n q | none => OutVal.s "") = _
    rw [if_neg (by simpa using h)]

theorem mkTrackerRec_snCount (env : GroqEnv) (fuel : Nat) (am asn : AggMap)
    (m w : Nat) (seed : List String) (g : GroqState) (name : String) :
    ((mkTrackerRec env fuel am asn m w seed g name).1).snCount =
      (if ((aggGet asn name).sn_ratings.map toNumericCell).filterMap id = [] then OutVal.s ""
       else OutVal.n (Q.ofNat (((aggGet asn name).sn_ratings.map toNumericCell).filterMap id).length)) := by
  by_cases h : ((aggGet asn name).sn_ratings.map toNumericCell).filterMap id = []
  · rw [if_pos h]
    show (if _ = 0 then OutVal.s "" else _) = OutVal.s ""
    rw [if_pos (by simp [h])]
  · rw [if_neg h]
    show (if _ = 0 then OutVal.s "" else _) = _
    rw [if_neg (by simpa [List.length_eq_zero] using h)]

theorem mkTrackerRec_manualAvg (env : GroqEnv) (fuel : Nat) (am asn : AggMap)
    (m w : Nat) (seed : List String) (g : GroqState) (name : String) :
    ((mkTrackerRec env fuel am asn m w seed g name).1).manualAvg =
      (match (if (aggGet am name).manual_grades.length = 0 then none
              else average_of_grades (aggGet am name).manual_grades) with
       | some q => OutVal.n q
       | none => OutVal.s "") := rfl

theorem mkTrackerRec_manualCount (env : GroqEnv) (fuel : Nat) (am asn : AggMap)
    (m w : Nat) (seed : List String) (g : GroqState) (name : String) :
    ((mkTrackerRec env fuel am asn m w seed g name).1).manualCount =
      (if (aggGet am name).manual_grades.length = 0 then OutVal.s ""
       else OutVal.n (Q.ofNat (aggGet am name).manual_grades.length)) := rfl

theorem mkTrackerRec_areas (env : GroqEnv) (fuel : Nat) (am asn : AggMap)
    (m w : Nat) (seed : List String) (g : GroqState) (name : String) :
    ((mkTrackerRec env fuel am asn m w seed g name).1).areasToImprove =
      (synthesize_areas_to_improve env fuel g
        ((aggGet am name).comments ++ (aggGet asn name).comments) name seed).1 := rfl

/-- The rows of the tracker are exactly the records built from the sorted
name list with the threaded session state. -/
theorem generate_tracker_rows (env : GroqEnv) (fuel : Nat) (gst : GroqState)
    (mdf sdf : DataFrame) (m w : Nat) (seed : List String) :
    ((generate_tracker env fuel gst mdf sdf m w seed).1).rows =
      (buildRecords env fuel (aggOfTable mdf m w) (aggOfTable sdf m w) m w seed gst
        (allNamesOf mdf sdf m w)).1 := rfl

/- ===================== Claim C3 ===================== -/

/-- C3: `generate_tracker` keeps only rows passing the target-week filter:
rows of each filtered table come from the original table; in the
week-column branch every kept row's week value matches `week_n`; and in
the date-column branch (taken when no week column is active) every kept
row's date parses and lands in month `month_n` with week-of-month
`week_n`.  It emits exactly one row per distinct employee key present in
either filtered table (the row names are exactly the key list, which is
duplicate-free and contains precisely the keys of the two filtered
tables), in sorted key order, with the fixed twelve-column layout. -/
theorem generate_tracker_layout_and_filtering (env : GroqEnv) (fuel : Nat) (gst : GroqState)
    (manual_df sn_df : DataFrame) (month_n week_n : Nat) (seed : List String) :
    ((generate_tracker env fuel gst manual_df sn_df month_n week_n seed).1).cols = col_order ∧
    col_order.length = 12 ∧
    ((generate_tracker env fuel gst manual_df sn_df month_n week_n seed).1).rows.map
        (·.employeeName) = allNamesOf manual_df sn_df month_n week_n ∧
    List.Pairwise strLe (allNamesOf manual_df sn_df month_n week_n) ∧
    (allNamesOf manual_df sn_df month_n week_n).Nodup ∧
    (∀ k, k ∈ allNamesOf manual_df sn_df month_n week_n ↔
       (k ∈ namesOfTable manual_df month_n week_n ∨ k ∈ namesOfTable sn_df month_n week_n)) ∧
    (∀ r ∈ (filteredBy manual_df month_n week_n).rows, r ∈ manual_df.rows) ∧
    (∀ r ∈ (filteredBy sn_df month_n week_n).rows, r ∈ sn_df.rows) ∧
    (∀ wc i, (extract_people_fields manual_df).week_col = some wc →
       colActive manual_df (some wc) = true → manual_df.colIdx wc = some i →
       ∀ r ∈ (filteredBy manual_df month_n week_n).rows,
         firstDigitRun (strOfCell (r.getD i Cell.nan)).data = some week_n) ∧
    (∀ wc i, (extract_people_fields sn_df).week_col = some wc →
       colActive sn_df (some wc) = true → sn_df.colIdx wc = some i →
       ∀ r ∈ (filteredBy sn_df month_n week_n).rows,
         firstDigitRun (strOfCell (r.getD i Cell.nan)).data = some week_n) ∧
    (∀ dc i, colActive manual_df (extract_people_fields manual_df).week_col = false →
       (extract_people_fields manual_df).date_col = some dc →
       colActive manual_df (some dc) = true → manual_df.colIdx dc = some i →
       ∀ r ∈ (filteredBy manual_df month_n week_n).rows,
         ∃ d, to_date (r.getD i Cell.nan) = some d ∧
           d.month = month_n ∧ week_of_month d = week_n) ∧
    (∀ dc i, colActive sn_df (extract_people_fields sn_df).week_col = false →
       (extract_people_fields sn_df).date_col = some dc →
       colActive sn_df (some dc) = true → sn_df.colIdx dc = some i →
       ∀ r ∈ (filteredBy sn_df month_n week_n).rows,
         ∃ d, to_date (r.getD i Cell.nan) = some d ∧
           d.month = month_n ∧ week_of_month d = week_n) := by
  have hweek : ∀ (df : DataFrame) (wc : String) (i : Nat),
      (extract_people_fields df).week_col = some wc →
      colActive df (some wc) = true → df.colIdx wc = some i →
      ∀ r ∈ (filteredBy df month_n week_n).rows,
        firstDigitRun (strOfCell (r.getD i Cell.nan)).data = some week_n := by
    intro df wc i hwc hact hidx r hr
    unfold filteredBy weekMask at hr
    rw [hwc] at hr
    by_cases hemp : df.isEmpty = true
    · have hcols : df.cols ≠ [] := by
        intro hnil
        unfold colActive at hact
        rw [hnil] at hact
        simp at hact
      have hrows : df.rows = [] := by
        unfold DataFrame.isEmpty at hemp
        rcases Bool.or_eq_true_iff.mp hemp with h' | h'
        · exact List.isEmpty_iff.mp h'
        · exact absurd (List.isEmpty_iff.mp h') hcols
      unfold get_week_filter_mask at hr
      rw [if_pos hemp] at hr
      unfold applyMask at hr
      rw [if_pos (by rw [hrows]; rfl)] at hr
      rw [hrows] at hr
      simp at hr
    · unfold get_week_filter_mask at hr
      rw [if_neg hemp, if_pos hact] at hr
      have hcv : df.colValues (Option.getD (some wc) "") =
          df.rows.map (fun row => row.getD i Cell.nan) := colValues_eq hidx
      rw [hcv, List.map_map] at hr
      have := (mem_applyMask_mapped hr).2
      simpa using this
  have hdate : ∀ (df : DataFrame) (dc : String) (i : Nat),
      colActive df (extract_people_fields df).week_col = false →
      (extract_people_fields df).date_col = some dc →
      colActive df (some dc) = true → df.colIdx dc = some i →
      ∀ r ∈ (filteredBy df month_n week_n).rows,
        ∃ d, to_date (r.getD i Cell.nan) = some d ∧
          d.month = month_n ∧ week_of_month d = week_n := by
    intro df dc i hwk hdc hact hidx r hr
    unfold filteredBy weekMask at hr
    rw [hdc] at hr
    by_cases hemp : df.isEmpty = true
    · have hcols : df.cols ≠ [] := by
        intro hnil
        unfold colActive at hact
        rw [hnil] at hact
        simp at hact
      have hrows : df.rows = [] := by
        unfold DataFrame.isEmpty at hemp
        rcases Bool.or_eq_true_iff.mp hemp with h' | h'
        · exact List.isEmpty_iff.mp h'
        · exact absurd (List.isEmpty_iff.mp h') hcols
      unfold get_week_filter_mask at hr
      rw [if_pos hemp] at hr
      unfold applyMask at hr
      rw [if_pos (by rw [hrows]; rfl)] at hr
      rw [hrows] at hr
      simp at hr
    · unfold get_week_filter_mask at hr
      rw [if_neg hemp, if_neg (by simp [hwk]), if_pos hact] at hr
      have hcv : df.colValues (Option.getD (some dc) "") =
          df.rows.map (fun row => row.getD i Cell.nan) := colValues_eq hidx
      rw [hcv, List.map_map] at hr
      have hpred := (mem_applyMask_mapped hr).2
      simp only [Function.comp_apply] at hpred
      cases hd : to_date (r.getD i Cell.nan) with
      | none =>
        rw [hd] at hpred
        simp at hpred
      | some d =>
        rw [hd] at hpred
        simp only [Bool.and_eq_true, beq_iff_eq] at hpred
        exact ⟨d, rfl, hpred.1, hpred.2⟩
  refine ⟨rfl, rfl, ?_, pairwise_sortedDedup _, nodup_sortedDedup _, ?_, ?_, ?_,
    hweek manual_df, hweek sn_df, hdate manual_df, hdate sn_df⟩
  · rw [generate_tracker_rows]
    exact buildRecords_names env fuel _ _ month_n week_n seed _ gst
  · intro k
    rw [allNamesOf, mem_sortedDedup, List.mem_append]
  · intro r hr
    exact mem_of_mem_applyMask hr
  · intro r hr
    exact mem_of_mem_applyMask hr

/-- C3 witness: on the concrete tables, the layout is the fixed 12 columns,
row names are the sorted key list, the week-filtered table's kept row has
week value 1, and the date-filtered table's kept row carries a date string
that parses into month 1, week-of-month 2. -/
theorem generate_tracker_layout_and_filtering_witness :
    ((generate_tracker groqEnvFail 2 gstInit manualEx snEx 1 1 []).1).cols = col_order ∧
    ((generate_tracker groqEnvFail 2 gstInit manualEx snEx 1 1 []).1).rows.map
        (·.employeeName) = allNamesOf manualEx snEx 1 1 ∧
    firstDigitRun (strOfCell (((filteredBy snEx 1 1).rows.headD []).getD 3 Cell.nan)).data =
      some 1 ∧
    (∃ d, to_date (((filteredBy snDateEx 1 2).rows.headD []).getD 2 Cell.nan) = some d ∧
       d.month = 1 ∧ week_of_month d = 2) :=
  ⟨(generate_tracker_layout_and_filtering groqEnvFail 2 gstInit manualEx snEx 1 1 []).1,
   (generate_tracker_layout_and_filtering groqEnvFail 2 gstInit manualEx snEx 1 1 []).2.2.1,
   (generate_tracker_layout_and_filtering groqEnvFail 2 gstInit manualEx snEx 1 1
     []).2.2.2.2.2.2.2.2.2.1 "Week" 3 (by decide) (by decide) (by decide)
     ((filteredBy snEx 1 1).rows.headD []) (by decide),
   (generate_tracker_layout_and_filtering groqEnvFail 2 gstInit manualEx snDateEx 1 2
     []).2.2.2.2.2.2.2.2.2.2.2 "Date" 2 (by decide) (by decide) (by decide) (by decide)
     ((filteredBy snDateEx 1 2).rows.headD []) (by decide)⟩

/- ===================== Claim C1 ===================== -/

/-- C1: for every row the tracker emits, the Team Lead is a most frequent
value among that employee's normalized team-lead values from both sources
(empty when there are none), the Quality Assessors field is the
comma-joined sorted duplicate-free list of exactly the distinct normalized
assessor values, and each average-rating field is the arithmetic mean
(sum/length) of that employee's coerced numeric ratings rounded to two
decimal places (for manual grades, the letter-grade scores when no entry
is numeric), or empty when there is nothing to average. -/
theorem generate_tracker_row_aggregates (env : GroqEnv) (fuel : Nat) (gst : GroqState)
    (mdf sdf : DataFrame) (m w : Nat) (seed : List String) (rec : TrackerRec)
    (hrec : rec ∈ ((generate_tracker env fuel gst mdf sdf m w seed).1).rows) :
    (teamLeadsOf mdf sdf m w rec.employeeName = [] → rec.teamLead = "") ∧
    (teamLeadsOf mdf sdf m w rec.employeeName ≠ [] →
       rec.teamLead ∈ teamLeadsOf mdf sdf m w rec.employeeName ∧
       ∀ t ∈ teamLeadsOf mdf sdf m w rec.employeeName,
         (teamLeadsOf mdf sdf m w rec.employeeName).count t ≤
           (teamLeadsOf mdf sdf m w rec.employeeName).count rec.teamLead) ∧
    rec.qualityAssessors = joinSep ", " (sortedDedup (assessorsOf mdf sdf m w rec.employeeName)) ∧
    List.Pairwise strLe (sortedDedup (assessorsOf mdf sdf m w rec.employeeName)) ∧
    (sortedDedup (assessorsOf mdf sdf m w rec.employeeName)).Nodup ∧
    (∀ x, x ∈ sortedDedup (assessorsOf mdf sdf m w rec.employeeName) ↔
       x ∈ assessorsOf mdf sdf m w rec.employeeName) ∧
    (snNumericOf sdf m w rec.employeeName = [] → rec.snAvg = OutVal.s "") ∧
    (snNumericOf sdf m w rec.employeeName ≠ [] →
       rec.snAvg = OutVal.n (round2 (meanQ (snNumericOf sdf m w rec.employeeName)))) ∧
    (manualGradesOf mdf m w rec.employeeName = [] → rec.manualAvg = OutVal.s "") ∧
    (manualGradesOf mdf m w rec.employeeName ≠ [] →
      (((manualGradesOf mdf m w rec.employeeName).map toNumericCell).any Option.isSome = true →
         rec.manualAvg = OutVal.n (round2 (meanQ
           (((manualGradesOf mdf m w rec.employeeName).map toNumericCell).filterMap id)))) ∧
      (((manualGradesOf mdf m w rec.employeeName).map toNumericCell).any Option.isSome = false →
         (((manualGradesOf mdf m w rec.employeeName).map letter_grade_to_score).filterMap id ≠ [] →
            rec.manualAvg = OutVal.n (round2 (meanQ
              (((manualGradesOf mdf m w rec.employeeName).map letter_grade_to_score).filterMap id)))) ∧
         (((manualGradesOf mdf m w rec.employeeName).map letter_grade_to_score).filterMap id = [] →
            rec.manualAvg = OutVal.s ""))) := by
  rw [generate_tracker_rows] at hrec
  obtain ⟨name, g, hmem, hrec'⟩ := buildRecords_mem env fuel _ _ m w seed _ gst rec hrec
  subst hrec'
  rw [mkTrackerRec_name]
  unfold teamLeadsOf assessorsOf snNumericOf manualGradesOf
  refine ⟨?_, ?_, mkTrackerRec_qa env fuel _ _ m w seed g name,
    pairwise_sortedDedup _, nodup_sortedDedup _, fun x => mem_sortedDedup _, ?_, ?_, ?_, ?_⟩
  · intro hnil
    rw [mkTrackerRec_teamLead, hnil]
    rfl
  · intro hne
    obtain ⟨b, hb⟩ := mostCommon_isSome hne
    rw [mkTrackerRec_teamLead, hb]
    obtain ⟨hbmem, hbc⟩ := mostCommon_spec hb
    exact ⟨hbmem, hbc⟩
  · intro hnil
    rw [mkTrackerRec_snAvg, if_pos hnil]
  · intro hne
    rw [mkTrackerRec_snAvg, if_neg hne]
  · intro hnil
    rw [mkTrackerRec_manualAvg]
    rw [if_pos (by rw [hnil]; rfl)]
  · intro hne
    have hlen : ¬ (aggGet (aggOfTable mdf m w) name).manual_grades.length = 0 := by
      simpa [List.length_eq_zero] using hne
    constructor
    · intro hnum
      rw [mkTrackerRec_manualAvg, if_neg hlen, average_of_grades_numeric hnum]
    · intro hnum
      constructor
      · intro hlet
        rw [mkTrackerRec_manualAvg, if_neg hlen, average_of_grades_letters hnum hlet]
      · intro hlet
        rw [mkTrackerRec_manualAvg, if_neg hlen, average_of_grades_unusable hnum hlet]

/-- C1 witness: for "alice" in the concrete tables, the majority team
lead, the assessor join and both averages are as the theorem describes. -/
theorem generate_tracker_row_aggregates_witness :
    ((generate_tracker groqEnvFail 2 gstInit manualEx snEx 1 1 []).1.rows.headD
        TrackerRec.empty) ∈ ((generate_tracker groqEnvFail 2 gstInit manualEx snEx 1 1 []).1).rows ∧
    teamLeadsOf manualEx snEx 1 1 "alice" ≠ [] ∧
    ((generate_tracker groqEnvFail 2 gstInit manualEx snEx 1 1 []).1.rows.headD
        TrackerRec.empty).teamLead ∈ teamLeadsOf manualEx snEx 1 1 "alice" ∧
    snNumericOf snEx 1 1 "alice" ≠ [] ∧
    ((generate_tracker groqEnvFail 2 gstInit manualEx snEx 1 1 []).1.rows.headD
        TrackerRec.empty).snAvg = OutVal.n (round2 (meanQ (snNumericOf snEx 1 1 "alice"))) := by
  refine ⟨by decide, by decide, ?_, by decide, ?_⟩
  · exact ((generate_tracker_row_aggregates groqEnvFail 2 gstInit manualEx snEx 1 1 []
      _ (by decide)).2.1 (by decide)).1
  · exact (generate_tracker_row_aggregates groqEnvFail 2 gstInit manualEx snEx 1 1 []
      _ (by decide)).2.2.2.2.2.2.2.1 (by decide)

/- ===================== Claim C8 ===================== -/

/-- C8: both average fields of every tracker row are numeric or the empty
string (never a non-numeric string), and any numeric average is the
rounded mean of coerced values only: the Service Now average over that
employee's numeric coercions, the manual average over the numeric
coercions or (failing those) the fixed-scale letter-grade scores. -/
theorem tracker_avgs_numeric_or_empty (env : GroqEnv) (fuel : Nat) (gst : GroqState)
    (mdf sdf : DataFrame) (m w : Nat) (seed : List String) (rec : TrackerRec)
    (hrec : rec ∈ ((generate_tracker env fuel gst mdf sdf m w seed).1).rows) :
    (rec.snAvg = OutVal.s "" ∨ ∃ q, rec.snAvg = OutVal.n q) ∧
    (rec.manualAvg = OutVal.s "" ∨ ∃ q, rec.manualAvg = OutVal.n q) ∧
    (∀ q, rec.snAvg = OutVal.n q →
       q = round2 (meanQ (snNumericOf sdf m w rec.employeeName))) ∧
    (∀ q, rec.manualAvg = OutVal.n q →
       ∃ vals : List Q,
         (vals = ((manualGradesOf mdf m w rec.employeeName).map toNumericCell).filterMap id ∨
          vals = ((manualGradesOf mdf m w rec.employeeName).map letter_grade_to_score).filterMap id) ∧
         vals ≠ [] ∧ q = round2 (meanQ vals)) := by
  rw [generate_tracker_rows] at hrec
  obtain ⟨name, g, hmem, hrec'⟩ := buildRecords_mem env fuel _ _ m w seed _ gst rec hrec
  subst hrec'
  rw [mkTrackerRec_name]
  unfold snNumericOf manualGradesOf
  rw [mkTrackerRec_snAvg env fuel (aggOfTable mdf m w) (aggOfTable sdf m w) m w seed g name,
    mkTrackerRec_manualAvg env fuel (aggOfTable mdf m w) (aggOfTable sdf m w) m w seed g name]
  generalize ((aggGet (aggOfTable sdf m w) name).sn_ratings.map toNumericCell).filterMap id = SNR
  generalize (aggGet (aggOfTable mdf m w) name).manual_grades = G
  refine ⟨?_, ?_, ?_, ?_⟩
  · by_cases h : SNR = []
    · rw [if_pos h]; exact Or.inl rfl
    · rw [if_neg h]; exact Or.inr ⟨_, rfl⟩
  · cases havg : (if G.length = 0 then none else average_of_grades G) with
    | none => exact Or.inl rfl
    | some q => exact Or.inr ⟨q, rfl⟩
  · intro q hq
    by_cases h : SNR = []
    · rw [if_pos h] at hq
      exact OutVal.noConfusion hq
    · rw [if_neg h] at hq
      cases hq
      rfl
  · intro q hq
    by_cases hlen : G.length = 0
    · rw [if_pos hlen] at hq
      exact OutVal.noConfusion hq
    · rw [if_neg hlen] at hq
      by_cases hnum : (G.map toNumericCell).any Option.isSome = true
      · rw [average_of_grades_numeric hnum] at hq
        cases hq
        exact ⟨_, Or.inl rfl, filterMap_id_ne_nil hnum, rfl⟩
      · have hnum' : (G.map toNumericCell).any Option.isSome = false :=
          Bool.eq_false_iff.mpr hnum
        by_cases hlet : (G.map letter_grade_to_score).filterMap id = []
        · rw [average_of_grades_unusable hnum' hlet] at hq
          exact OutVal.noConfusion hq
        · rw [average_of_grades_letters hnum' hlet] at hq
          cases hq
          exact ⟨_, Or.inr rfl, hlet, rfl⟩

/-- C8 witness: for the concrete tables, both averages of the produced row
are numeric, and the Service Now one equals the rounded mean of the
coerced ratings. -/
theorem tracker_avgs_numeric_or_empty_witness :
    (((generate_tracker groqEnvFail 2 gstInit manualEx snEx 1 1 []).1.rows.headD
        TrackerRec.empty).snAvg = OutVal.s "" ∨
     ∃ q, ((generate_tracker groqEnvFail 2 gstInit manualEx snEx 1 1 []).1.rows.headD
        TrackerRec.empty).snAvg = OutVal.n q) ∧
    (((generate_tracker groqEnvFail 2 gstInit manualEx snEx 1 1 []).1.rows.headD
        TrackerRec.empty).manualAvg = OutVal.s "" ∨
     ∃ q, ((generate_tracker groqEnvFail 2 gstInit manualEx snEx 1 1 []).1.rows.headD
        TrackerRec.empty).manualAvg = OutVal.n q) :=
  ⟨(tracker_avgs_numeric_or_empty groqEnvFail 2 gstInit manualEx snEx 1 1 [] _ (by decide)).1,
   (tracker_avgs_numeric_or_empty groqEnvFail 2 gstInit manualEx snEx 1 1 [] _ (by decide)).2.1⟩

/- ===================== Claim C6 ===================== -/

def manualNoTL : DataFrame := ⟨["Name"], [[Cell.str "al"]]⟩

def snWithTL : DataFrame :=
  ⟨["Name", "Team Lead", "Rating"], [[Cell.str "al", Cell.str "Zoe", Cell.num ⟨4, 1⟩]]⟩

/-- C6 counterexample: the manual table resolves no team-lead column, yet
the produced row's Team Lead field is "Zoe" (supplied by the other table),
not the empty string. -/
theorem missing_column_single_table_counterexample :
    (extract_people_fields manualNoTL).tl_col = none ∧
    ((generate_tracker groqEnvFail 2 gstInit manualNoTL snWithTL 1 1 []).1.rows.headD
        TrackerRec.empty).teamLead = "Zoe" := by
  refine ⟨by decide, by decide⟩

def onlyNameEx : DataFrame := ⟨["Name"], [[Cell.str "Al"]]⟩

def noNameEx : DataFrame := ⟨["X"], [[Cell.str "v"]]⟩

/-- C6 (amended): `generate_tracker` is total, and an output field is the
empty string whenever its feeding column is unresolved in every table it
draws from — team lead, assessors and comments draw from both tables, the
Service Now rating from the ticketing table only, the manual grade from
the manual table only; an unresolved name column in both tables yields no
rows at all. -/
theorem missing_columns_empty_fields (env : GroqEnv) (fuel : Nat) (gst : GroqState)
    (mdf sdf : DataFrame) (m w : Nat) (seed : List String) :
    ((extract_people_fields mdf).name_col = none → (extract_people_fields sdf).name_col = none →
       ((generate_tracker env fuel gst mdf sdf m w seed).1).rows = []) ∧
    (∀ rec ∈ ((generate_tracker env fuel gst mdf sdf m w seed).1).rows,
       ((extract_people_fields mdf).tl_col = none → (extract_people_fields sdf).tl_col = none →
          rec.teamLead = "") ∧
       ((extract_people_fields mdf).qa_col = none → (extract_people_fields sdf).qa_col = none →
          rec.qualityAssessors = "") ∧
       ((extract_people_fields mdf).comments_col = none →
          (extract_people_fields sdf).comments_col = none → rec.areasToImprove = "") ∧
       ((extract_people_fields sdf).sn_rating_col = none →
          rec.snCount = OutVal.s "" ∧ rec.snAvg = OutVal.s "") ∧
       ((extract_people_fields mdf).manual_grade_col = none →
          rec.manualCount = OutVal.s "" ∧ rec.manualAvg = OutVal.s "")) := by
  constructor
  · intro h1 h2
    have hall : allNamesOf mdf sdf m w = [] := by
      unfold allNamesOf namesOfTable
      rw [h1, h2]
      rfl
    rw [generate_tracker_rows, hall]
    rfl
  · intro rec hrec
    rw [generate_tracker_rows] at hrec
    obtain ⟨name, g, hmem, hrec'⟩ := buildRecords_mem env fuel _ _ m w seed _ gst rec hrec
    subst hrec'
    refine ⟨?_, ?_, ?_, ?_, ?_⟩
    · intro h1 h2
      rw [mkTrackerRec_teamLead]
      unfold aggOfTable
      rw [per_employee_team_leads_nil _ _ h1 name, per_employee_team_leads_nil _ _ h2 name]
      rfl
    · intro h1 h2
      rw [mkTrackerRec_qa]
      unfold aggOfTable
      rw [per_employee_assessors_nil _ _ h1 name, per_employee_assessors_nil _ _ h2 name]
      rfl
    · intro h1 h2
      rw [mkTrackerRec_areas]
      unfold aggOfTable
      rw [per_employee_comments_nil _ _ h1 name, per_employee_comments_nil _ _ h2 name]
      rfl
    · intro h
      rw [mkTrackerRec_snCount, mkTrackerRec_snAvg]
      unfold aggOfTable
      rw [per_employee_sn_ratings_nil _ _ h name]
      exact ⟨rfl, rfl⟩
    · intro h
      rw [mkTrackerRec_manualCount, mkTrackerRec_manualAvg]
      unfold aggOfTable
      rw [per_employee_manual_grades_nil _ _ h name]
      exact ⟨rfl, rfl⟩

/-- C6 witness: with both name columns unresolved no rows appear; with only
a name column resolved, every other output field of the produced row is
empty. -/
theorem missing_columns_empty_fields_witness :
    ((generate_tracker groqEnvFail 1 gstInit noNameEx noNameEx 1 1 []).1).rows = [] ∧
    ((generate_tracker groqEnvFail 1 gstInit onlyNameEx noNameEx 1 1 []).1.rows.headD
        TrackerRec.empty).teamLead = "" ∧
    ((generate_tracker groqEnvFail 1 gstInit onlyNameEx noNameEx 1 1 []).1.rows.headD
        TrackerRec.empty).qualityAssessors = "" ∧
    ((generate_tracker groqEnvFail 1 gstInit onlyNameEx noNameEx 1 1 []).1.rows.headD
        TrackerRec.empty).areasToImprove = "" ∧
    ((generate_tracker groqEnvFail 1 gstInit onlyNameEx noNameEx 1 1 []).1.rows.headD
        TrackerRec.empty).snAvg = OutVal.s "" ∧
    ((generate_tracker groqEnvFail 1 gstInit onlyNameEx noNameEx 1 1 []).1.rows.headD
        TrackerRec.empty).manualAvg = OutVal.s "" := by
  have h := (missing_columns_empty_fields groqEnvFail 1 gstInit onlyNameEx noNameEx 1 1 []).2
    ((generate_tracker groqEnvFail 1 gstInit onlyNameEx noNameEx 1 1 []).1.rows.headD
      TrackerRec.empty) (by decide)
  exact ⟨(missing_columns_empty_fields groqEnvFail 1 gstInit noNameEx noNameEx 1 1 []).1
      (by decide) (by decide),
    h.1 (by decide) (by decide), h.2.1 (by decide) (by decide), h.2.2.1 (by decide) (by decide),
    (h.2.2.2.1 (by decide)).2, (h.2.2.2.2 (by decide)).2⟩
